import Mathlib

/-!
Verification development for the Redis-backed ephemeral token stores of the
repository: `UserSessionRepository` (user sessions) and
`PasswordResetTokenRepository` (password-reset tokens).

Modelling conventions (shallow embedding of the Python source):

* Timestamps are `Nat` (seconds).  Every repository operation reads the wall
  clock several times through `datetime.now()`; within one operation all those
  readings are modelled by a single `now : Nat` parameter (the readings agree
  up to clock resolution).
* A Redis hash stores string values.  The source always writes strings of one
  of four shapes: an isoformat timestamp, a decimal integer, the empty string,
  or a plain string.  We model the stored string by the tagged type `RVal`,
  whose constructors are injective images of those four encodings, so the
  source's parsing (`int(value)`, `datetime.fromisoformat(value)`,
  `value == "1"`, truthiness of `""`) becomes a total match.
* Redis keys with `EXPIREAT` are modelled by an optional absolute expiry on
  each hash entry; a key is readable at `now` iff `now ≤ expiry` (Redis lazily
  treats a key as gone once the current time has passed its expireat time).
  `int(dt.timestamp())` truncation is the identity on `Nat` seconds.
* Sorted sets are association lists `member ↦ score` (`ZADD` upserts,
  `ZRANGEBYSCORE` filters, `ZRANGE key 0 0` takes the (score, member)-minimum).
* Redis pipelines with `transaction=True` either apply all queued commands or
  none.  Immediate commands (`INCR`, `ZCARD`, the eviction `DELETE` inside
  `create`) execute at their program point, before the pipeline's `execute()`.
  Backing-store (`RedisError`) failures are not modelled: every modelled
  transaction commits.  A Python exception raised *before* `execute()`
  (`KeyError` on a record missing a field) discards the pipeline and leaves
  the state unchanged; operations that can raise return an `error` outcome.
* `asyncio.sleep` between cleanup batches is a no-op here (no time passes
  inside one operation).
-/

/-- Raw value stored in one Redis hash field: a tagged image of the string the
source writes (`str(...)`, `datetime.isoformat()`, a decimal id, or `""`). -/
inductive RVal where
  | str (v : String)
  | time (v : Nat)
  | num (v : Nat)
  | emptyS
deriving DecidableEq, Repr

/-- The field map of one Redis hash, as an association list (first match wins;
all operations preserve key uniqueness via upsert). -/
abbrev Fields := List (String × RVal)

/-- Generic association-list lookup (first match wins). -/
def alookup [DecidableEq κ] (l : List (κ × α)) (k : κ) : Option α :=
  match l with
  | [] => none
  | (k', v) :: rest => if k' = k then some v else alookup rest k

/-- Generic association-list insert-or-replace (in place, else appended). -/
def aupsert [DecidableEq κ] (l : List (κ × α)) (k : κ) (v : α) : List (κ × α) :=
  match l with
  | [] => [(k, v)]
  | (k', v') :: rest => if k' = k then (k, v) :: rest else (k', v') :: aupsert rest k v

/-- Generic association-list key removal. -/
def adel [DecidableEq κ] (l : List (κ × α)) (k : κ) : List (κ × α) :=
  l.filter (fun q => q.1 ≠ k)

/-- `HGET`-style lookup in a field map. -/
def lookupF (l : Fields) (k : String) : Option RVal :=
  alookup l k

/-- Insert-or-replace one field (Redis `HSET` of a single field). -/
def upsertF (l : Fields) (k : String) (v : RVal) : Fields :=
  aupsert l k v

/-- Apply a mapping of fields left to right (Redis `HSET key mapping={...}`). -/
def hsetFields (base : Fields) (kvs : Fields) : Fields :=
  kvs.foldl (fun acc kv => upsertF acc kv.1 kv.2) base

/-- One stored Redis key of hash type: its fields and its optional absolute
expiry (set by `EXPIREAT`). -/
structure HEntry where
  fields : Fields
  expAt : Option Nat := none
deriving DecidableEq, Repr

/-- Whether the key is still readable at `now`: Redis treats a key as expired
once the current time is strictly past its expireat time. -/
def HEntry.alive (e : HEntry) (now : Nat) : Bool :=
  match e.expAt with
  | none => true
  | some x => decide (now ≤ x)

/-- The primary keyspace: token ↦ hash entry. -/
abbrev Primary := List (String × HEntry)

def plookup (p : Primary) (tok : String) : Option HEntry :=
  alookup p tok

def pupsert (p : Primary) (tok : String) (e : HEntry) : Primary :=
  aupsert p tok e

/-- `DEL` of a key. -/
def pdel (p : Primary) (tok : String) : Primary :=
  adel p tok

/-- Redis `HSET key mapping`: merges into a live key; a dead (self-expired) or
absent key is (re)created fresh, with no TTL. -/
def hsetP (p : Primary) (now : Nat) (tok : String) (kvs : Fields) : Primary :=
  match plookup p tok with
  | some e =>
      if e.alive now then pupsert p tok { e with fields := hsetFields e.fields kvs }
      else pupsert p tok { fields := hsetFields [] kvs, expAt := none }
  | none => pupsert p tok { fields := hsetFields [] kvs, expAt := none }

/-- Redis `EXPIREAT key t`: sets the expiry of a live key; a dead key is
lazily discarded, an absent key is a no-op. -/
def expireatP (p : Primary) (now : Nat) (tok : String) (t : Nat) : Primary :=
  match plookup p tok with
  | some e => if e.alive now then pupsert p tok { e with expAt := some t } else pdel p tok
  | none => p

/-- A sorted set: member ↦ score. -/
abbrev ZSet := List (String × Nat)

def zscoreOf (z : ZSet) (tok : String) : Option Nat :=
  alookup z tok

/-- `ZADD`: insert or update the member's score. -/
def zaddZ (z : ZSet) (tok : String) (sc : Nat) : ZSet :=
  aupsert z tok sc

/-- `ZREM`. -/
def zremZ (z : ZSet) (tok : String) : ZSet :=
  adel z tok

/-- `ZCOUNT key -inf now` (score ≤ now, both bounds inclusive). -/
def zcountLe (z : ZSet) (t : Nat) : Nat :=
  z.countP (fun q => decide (q.2 ≤ t))

/-- `ZRANGEBYSCORE key now +inf` (score ≥ now, inclusive), members only. -/
def zrangeGe (z : ZSet) (t : Nat) : List String :=
  (z.filter (fun q => decide (t ≤ q.2))).map Prod.fst

/-- `ZRANGEBYSCORE key -inf now` (score ≤ now, inclusive), members only. -/
def zrangeLe (z : ZSet) (t : Nat) : List String :=
  (z.filter (fun q => decide (q.2 ≤ t))).map Prod.fst

/-- `ZRANGE key 0 0`: the member with minimal (score, member) in Redis order
(score ascending, ties by member lexicographically). -/
def zminMember (z : ZSet) : Option String :=
  match z with
  | [] => none
  | (t, sc) :: rest =>
      match zminMemberAux rest (t, sc) with
      | q => some q.1
where
  zminMemberAux : ZSet → String × Nat → String × Nat
    | [], best => best
    | (t, sc) :: rest, best =>
        if sc < best.2 ∨ (sc = best.2 ∧ t < best.1) then zminMemberAux rest (t, sc)
        else zminMemberAux rest best

/-- The per-owner family of sorted sets (`{prefix}user:{user_id}` keys). -/
abbrev UserZ := List (Nat × ZSet)

def uzget (uz : UserZ) (uid : Nat) : ZSet :=
  (alookup uz uid).getD []

def uzset (uz : UserZ) (uid : Nat) (z : ZSet) : UserZ :=
  aupsert uz uid z

def uzadd (uz : UserZ) (uid : Nat) (tok : String) (sc : Nat) : UserZ :=
  uzset uz uid (zaddZ (uzget uz uid) tok sc)

def uzrem (uz : UserZ) (uid : Nat) (tok : String) : UserZ :=
  uzset uz uid (zremZ (uzget uz uid) tok)

/-- One `{prefix}ip:{ip}` plain-set key, which carries its own TTL
(`EXPIRE ... 86400`). -/
structure IpEntry where
  members : List String
  expAt : Option Nat := none
deriving DecidableEq, Repr

abbrev IpSets := List (String × IpEntry)

def iplookup (m : IpSets) (ip : String) : Option IpEntry :=
  alookup m ip

def ipupsert (m : IpSets) (ip : String) (e : IpEntry) : IpSets :=
  aupsert m ip e

def ipdel (m : IpSets) (ip : String) : IpSets :=
  adel m ip

def IpEntry.alive (e : IpEntry) (now : Nat) : Bool :=
  match e.expAt with
  | none => true
  | some x => decide (now ≤ x)

/-- `SADD` on an ip set (lazily discarding a self-expired key first). -/
def ipadd (m : IpSets) (now : Nat) (ip : String) (tok : String) : IpSets :=
  match iplookup m ip with
  | some e =>
      if e.alive now then
        if tok ∈ e.members then m else ipupsert m ip { e with members := e.members ++ [tok] }
      else ipupsert m ip { members := [tok], expAt := none }
  | none => ipupsert m ip { members := [tok], expAt := none }

/-- `EXPIRE key 86400` on an ip set. -/
def ipexpire (m : IpSets) (now : Nat) (ip : String) (ttl : Nat) : IpSets :=
  match iplookup m ip with
  | some e => if e.alive now then ipupsert m ip { e with expAt := some (now + ttl) } else ipdel m ip
  | none => m

/-- `SREM` on an ip set (Redis removes a set key that becomes empty). -/
def iprem (m : IpSets) (now : Nat) (ip : String) (tok : String) : IpSets :=
  match iplookup m ip with
  | some e =>
      if e.alive now then
        match e.members.filter (fun t => t ≠ tok) with
        | [] => ipdel m ip
        | ms => ipupsert m ip { e with members := ms }
      else ipdel m ip
  | none => m

/-- The id ↦ token mapping kept by `SET {prefix}id:{id} token`. -/
abbrev IdMap := List (Nat × String)

def idset (m : IdMap) (i : Nat) (tok : String) : IdMap :=
  aupsert m i tok

def iddel (m : IdMap) (i : Nat) : IdMap :=
  adel m i

/-- Outcome of an operation that in Python returns a value or raises an
uncaught exception before its transaction commits. -/
inductive OpRes (α : Type) where
  | ok (v : α)
  | error
deriving DecidableEq, Repr

/-- Structural helper for `chunks1`: the fuel only bounds the recursion depth
and is never exhausted when it starts at the list's length. -/
def chunksFuel (b : Nat) : Nat → List α → List (List α)
  | _, [] => []
  | 0, _ :: _ => []
  | fuel + 1, x :: xs => (x :: xs.take b) :: chunksFuel b fuel (xs.drop b)

/-- Split a list into chunks of size `b + 1`
(`for i in range(0, len(xs), batch_size)`). -/
def chunks1 (b : Nat) (l : List α) : List (List α) :=
  chunksFuel b l.length l

namespace UserSessionRepository

/-! ### `UserSessionRepository` (src/backend/app/repositories/user_session_repository.py) -/

def MAX_SESSIONS_PER_USER : Nat := 15

/-- `INACTIVITY_TIMEOUT = timedelta(minutes=30)`, in seconds. -/
def INACTIVITY_TIMEOUT : Nat := 1800

/-- Whole state of one `UserSessionRepository` instance (all the Redis keys it
owns, plus its `id_seq` counter). -/
structure SState where
  primary : Primary
  userZ : UserZ
  expiryZ : ZSet
  activityZ : ZSet
  ipSets : IpSets
  idMap : IdMap
  idSeq : Nat
deriving DecidableEq, Repr

def emptySState : SState :=
  { primary := [], userZ := [], expiryZ := [], activityZ := [], ipSets := [], idMap := [], idSeq := 0 }

/-- The `session_data` dict `create` builds and returns on success. -/
structure SRecFull where
  id : Nat
  user_id : Nat
  session_token : String
  expires_at : Nat
  ip_address : String
  user_agent : String
  last_activity_at : Nat
  created_at : Nat
deriving DecidableEq, Repr

/-- The dict `_parse_session_data` produces.  A `none` field stands for a hash
key that is missing or holds an empty value; the source distinguishes the two
only on paths that raise (modelled as `OpRes.error` in the callers). -/
structure SRec where
  id : Option Nat := none
  user_id : Option Nat := none
  session_token : Option String := none
  expires_at : Option Nat := none
  ip_address : Option String := none
  user_agent : Option String := none
  last_activity_at : Option Nat := none
  created_at : Option Nat := none
deriving DecidableEq, Repr

/-- `int(value) if value else None` on an id-like field (a non-numeric string
would raise; such values never occur for these keys). -/
def parseNatF (l : Fields) (k : String) : Option Nat :=
  match lookupF l k with
  | some (.num n) => some n
  | _ => none

/-- `datetime.fromisoformat(value) if value else None`. -/
def parseTimeF (l : Fields) (k : String) : Option Nat :=
  match lookupF l k with
  | some (.time t) => some t
  | _ => none

/-- A field kept as a plain string. -/
def parseStrF (l : Fields) (k : String) : Option String :=
  match lookupF l k with
  | some (.str s) => some s
  | some .emptyS => some ""
  | _ => none

/-- `_parse_session_data`. -/
def _parse_session_data (l : Fields) : SRec :=
  { id := parseNatF l "id"
    user_id := parseNatF l "user_id"
    session_token := parseStrF l "session_token"
    expires_at := parseTimeF l "expires_at"
    ip_address := parseStrF l "ip_address"
    user_agent := parseStrF l "user_agent"
    last_activity_at := parseTimeF l "last_activity_at"
    created_at := parseTimeF l "created_at" }

/-- `get`: `HGETALL` then parse; `None` when the hash is absent (never created,
deleted, or self-expired) or empty. -/
def get (s : SState) (now : Nat) (tok : String) : Option SRec :=
  match plookup s.primary tok with
  | none => none
  | some e =>
      if e.alive now then
        if e.fields.isEmpty then none else some (_parse_session_data e.fields)
      else none

/-- `_check_session_limits`. -/
def _check_session_limits (s : SState) (user_id : Nat) (now : Nat) : Bool :=
  let zs := uzget s.userZ user_id
  if zs.length ≥ MAX_SESSIONS_PER_USER then
    let expired := zcountLe zs now
    if zs.length - expired ≥ MAX_SESSIONS_PER_USER then false else true
  else true

/-- `delete`: reads the record first; absent → `False` with nothing removed;
otherwise removes the primary hash and every index entry in one transaction.
`error` models the uncaught `KeyError` when the parsed record lacks
`user_id`/`ip_address` (possible only for partial hashes), raised before the
transaction commits. -/
def delete (s : SState) (now : Nat) (tok : String) : OpRes Bool × SState :=
  match get s now tok with
  | none => (.ok false, s)
  | some d =>
      match d.user_id, d.ip_address with
      | some uid, some ip =>
          (.ok true,
            { s with
              primary := pdel s.primary tok
              userZ := uzrem s.userZ uid tok
              expiryZ := zremZ s.expiryZ tok
              activityZ := zremZ s.activityZ tok
              ipSets := iprem s.ipSets now ip tok
              idMap :=
                match d.id with
                | some i => if i = 0 then s.idMap else iddel s.idMap i
                | none => s.idMap })
      | _, _ => (.error, s)

/-- `create`.  `tok` stands for the fresh `secrets.token_urlsafe(48)` value.
The `INCR` of `id_seq`, the `ZCARD`, and the eviction `delete` execute
immediately; the queued pipeline commands apply afterwards. -/
def create (s : SState) (user_id : Nat) (ip ua : String) (ttl_hours : Nat)
    (now : Nat) (tok : String) : OpRes (Option SRecFull) × SState :=
  let session_id := s.idSeq + 1
  let s1 := { s with idSeq := session_id }
  let expires_at := now + ttl_hours * 3600
  let session_data : SRecFull :=
    { id := session_id, user_id := user_id, session_token := tok, expires_at := expires_at
      ip_address := ip, user_agent := ua, last_activity_at := now, created_at := now }
  if _check_session_limits s1 user_id now = false then (.ok none, s1)
  else
    -- Enforce-limits step: `ZCARD` on the pre-transaction state, then an
    -- immediate `delete` of the (score, member)-minimal entry if count > max.
    let zs := uzget s1.userZ user_id
    let evicted : OpRes SState :=
      if zs.length > MAX_SESSIONS_PER_USER then
        match zminMember zs with
        | some oldest =>
            match delete s1 now oldest with
            | (.error, _) => .error
            | (_, s') => .ok s'
        | none => .ok s1
      else .ok s1
    match evicted with
    | .error => (.error, s1)
    | .ok s2 =>
        -- pipeline commits: HSET, EXPIREAT, ZADD user, ZADD expiry,
        -- ZADD activity, SADD ip, EXPIRE ip 86400, SET id→token
        let fieldsW : Fields :=
          [("id", .num session_id), ("user_id", .num user_id),
           ("session_token", .str tok), ("expires_at", .time expires_at),
           ("ip_address", .str ip), ("user_agent", .str ua),
           ("last_activity_at", .time now), ("created_at", .time now)]
        let s3 :=
          { s2 with
            primary := expireatP (hsetP s2.primary now tok fieldsW) now tok expires_at
            userZ := uzadd s2.userZ user_id tok expires_at
            expiryZ := zaddZ s2.expiryZ tok expires_at
            activityZ := zaddZ s2.activityZ tok now
            ipSets := ipexpire (ipadd s2.ipSets now ip tok) now ip 86400
            idMap := idset s2.idMap session_id tok }
        (.ok (some session_data), s3)

/-- `update_activity`: one transaction of `HSET last_activity_at` (which
creates the hash when the token is absent) and `ZADD` on the activity index;
returns `True` unconditionally once the transaction commits. -/
def update_activity (s : SState) (tok : String) (now : Nat) : Bool × SState :=
  (true,
    { s with
      primary := hsetP s.primary now tok [("last_activity_at", .time now)]
      activityZ := zaddZ s.activityZ tok now })

/-- `extend`: recomputes `expires_at = now + additional_hours`, updating the
hash, the key TTL, the expiry index and the owner index.  `error` models the
`KeyError` when the record lacks `user_id` (raised before commit). -/
def extend (s : SState) (tok : String) (additional_hours : Nat) (now : Nat) :
    OpRes Bool × SState :=
  match get s now tok with
  | none => (.ok false, s)
  | some d =>
      match d.user_id with
      | some uid =>
          let newExp := now + additional_hours * 3600
          (.ok true,
            { s with
              primary := expireatP (hsetP s.primary now tok [("expires_at", .time newExp)]) now tok newExp
              expiryZ := zaddZ s.expiryZ tok newExp
              userZ := uzadd s.userZ uid tok newExp })
      | none => (.error, s)

/-- `validate_session`; `none` models the uncaught exception on a partial
record (missing `expires_at`/`last_activity_at`). -/
def validate_session (s : SState) (now : Nat) (tok : String) :
    Option (Bool × Option String) :=
  match get s now tok with
  | none => some (false, some "Invalid session")
  | some d =>
      match d.expires_at with
      | none => none
      | some exp =>
          if exp < now then some (false, some "Session expired")
          else
            match d.last_activity_at with
            | none => none
            | some la =>
                if now - la > INACTIVITY_TIMEOUT then some (false, some "Session inactive")
                else some (true, none)

/-- Comparison used by `find_by_user`'s sort: most recent activity first. -/
def activityLe (a b : SRec) : Bool :=
  b.last_activity_at.getD 0 ≤ a.last_activity_at.getD 0

def insertByActivity (x : SRec) : List SRec → List SRec
  | [] => [x]
  | y :: ys => if activityLe x y then x :: y :: ys else y :: insertByActivity x ys

/-- Stable insertion sort by `last_activity_at`, most recent first
(`valid_sessions.sort(key=..., reverse=True)`). -/
def sortByActivity : List SRec → List SRec
  | [] => []
  | x :: xs => insertByActivity x (sortByActivity xs)

/-- `find_by_user`: resolve the owner index (`score ≥ now` when
`active_only`), fetch each token, drop stale entries, sort by activity. -/
def find_by_user (s : SState) (user_id : Nat) (active_only : Bool) (now : Nat) :
    List SRec :=
  let zs := uzget s.userZ user_id
  let toks := if active_only then zrangeGe zs now else zs.map Prod.fst
  sortByActivity (toks.filterMap (get s now))

/-- One deletion inside a `cleanup_expired` batch: a successful delete is
counted, a failed or raising one is skipped (`return_exceptions=True`). -/
def cleanupStep (now : Nat) (acc : Nat × SState) (tok : String) : Nat × SState :=
  match delete acc.2 now tok with
  | (.ok true, s') => (acc.1 + 1, s')
  | (.ok false, s') => (acc.1, s')
  | (.error, s') => (acc.1, s')

/-- One batch of `cleanup_expired`. -/
def cleanupBatch (now : Nat) (acc : Nat × SState) (batch : List String) : Nat × SState :=
  batch.foldl (cleanupStep now) acc

/-- `cleanup_expired`: scan the expiry index for `score ≤ now`, delete in
batches of `batch_size`, return the number of successful deletions.  `none`
models the `ValueError` of `range(0, n, 0)` when `batch_size = 0`. -/
def cleanup_expired (s : SState) (now : Nat) (batch_size : Nat) : Option (Nat × SState) :=
  match batch_size with
  | 0 => none
  | b + 1 =>
      let expired := zrangeLe s.expiryZ now
      some ((chunks1 b expired).foldl (cleanupBatch now) (0, s))

end UserSessionRepository

namespace PasswordResetTokenRepository

/-! ### `PasswordResetTokenRepository`
(src/backend/app/repositories/reset_password_repository.py) -/

/-- State of one `PasswordResetTokenRepository` instance. -/
structure RState where
  primary : Primary
  userZ : UserZ
  expiryZ : ZSet
  pending : List String
  used : List String
  idMap : IdMap
  idSeq : Nat
deriving DecidableEq, Repr

def emptyRState : RState :=
  { primary := [], userZ := [], expiryZ := [], pending := [], used := [], idMap := [], idSeq := 0 }

/-- `SADD` on a plain set. -/
def saddL (l : List String) (tok : String) : List String :=
  if tok ∈ l then l else l ++ [tok]

/-- `SREM` on a plain set. -/
def sremL (l : List String) (tok : String) : List String :=
  l.filter (fun t => t ≠ tok)

/-- The `token_data` dict `create` builds and returns on success. -/
structure RRecFull where
  id : Nat
  user_id : Nat
  reset_token : String
  token_expires : Nat
  is_used : Bool
  created_at : Nat
  used_at : Option Nat
deriving DecidableEq, Repr

/-- The dict `_parse_token_data` produces (`none` = key missing or empty). -/
structure RRec where
  id : Option Nat := none
  user_id : Option Nat := none
  reset_token : Option String := none
  token_expires : Option Nat := none
  is_used : Option Bool := none
  created_at : Option Nat := none
  used_at : Option Nat := none
deriving DecidableEq, Repr

/-- `value == "1"` on the raw stored string of `is_used`. -/
def parseIsUsed (l : Fields) : Option Bool :=
  match lookupF l "is_used" with
  | some (.str v) => some (v = "1")
  | some .emptyS => some false
  | some (.num n) => some (n = 1)
  | some (.time _) => some false
  | none => none

/-- `_parse_token_data`. -/
def _parse_token_data (l : Fields) : RRec :=
  { id := UserSessionRepository.parseNatF l "id"
    user_id := UserSessionRepository.parseNatF l "user_id"
    reset_token := UserSessionRepository.parseStrF l "reset_token"
    token_expires := UserSessionRepository.parseTimeF l "token_expires"
    is_used := parseIsUsed l
    created_at := UserSessionRepository.parseTimeF l "created_at"
    used_at := UserSessionRepository.parseTimeF l "used_at" }

/-- `get`. -/
def get (s : RState) (now : Nat) (tok : String) : Option RRec :=
  match plookup s.primary tok with
  | none => none
  | some e =>
      if e.alive now then
        if e.fields.isEmpty then none else some (_parse_token_data e.fields)
      else none

/-- `create`; `tok` stands for `secrets.token_urlsafe(32)`. -/
def create (s : RState) (user_id : Nat) (expiry_minutes : Nat) (now : Nat)
    (tok : String) : RRecFull × RState :=
  let token_id := s.idSeq + 1
  let s1 := { s with idSeq := token_id }
  let token_expires := now + expiry_minutes * 60
  let token_data : RRecFull :=
    { id := token_id, user_id := user_id, reset_token := tok
      token_expires := token_expires, is_used := false, created_at := now, used_at := none }
  let fieldsW : Fields :=
    [("id", .num token_id), ("user_id", .num user_id), ("reset_token", .str tok),
     ("token_expires", .time token_expires), ("is_used", .str "0"),
     ("created_at", .time now), ("used_at", .emptyS)]
  (token_data,
    { s1 with
      primary := expireatP (hsetP s1.primary now tok fieldsW) now tok token_expires
      userZ := uzadd s1.userZ user_id tok token_expires
      expiryZ := zaddZ s1.expiryZ tok token_expires
      pending := saddL s1.pending tok
      idMap := idset s1.idMap token_id tok })

/-- A value passed in the `updates` dict of `update` (the source special-cases
the Python singletons `True`/`False`, `datetime` values, and stringifies the
rest). -/
inductive UVal where
  | b (v : Bool)
  | dt (v : Nat)
  | s (v : String)
  | n (v : Nat)
deriving DecidableEq, Repr

/-- The `redis_updates` dict built by `update` from the caller's `updates`. -/
def redisUpdates (updates : List (String × UVal)) (now : Nat) : Fields :=
  updates.foldl
    (fun acc fv =>
      if fv.1 = "is_used" ∧ fv.2 = .b true then
        upsertF (upsertF acc "is_used" (.str "1")) "used_at" (.time now)
      else if fv.1 = "is_used" ∧ fv.2 = .b false then
        upsertF (upsertF acc "is_used" (.str "0")) "used_at" .emptyS
      else
        match fv.2 with
        | .dt t => upsertF acc fv.1 (.time t)
        | .b true => upsertF acc fv.1 (.str "True")
        | .b false => upsertF acc fv.1 (.str "False")
        | .s v => upsertF acc fv.1 (.str v)
        | .n i => upsertF acc fv.1 (.num i))
    []

/-- `update`: builds `redis_updates`, returns `False` only when it is empty;
otherwise one transaction of `HSET` (which creates the hash when the key is
absent — there is no existence check) plus, when `is_used` maps to `"1"`, the
pending→used set move. -/
def update (s : RState) (tok : String) (updates : List (String × UVal)) (now : Nat) :
    Bool × RState :=
  let ru := redisUpdates updates now
  if ru.isEmpty then (false, s)
  else
    let prim' := hsetP s.primary now tok ru
    if lookupF ru "is_used" = some (.str "1") then
      (true,
        { s with primary := prim', pending := sremL s.pending tok, used := saddL s.used tok })
    else (true, { s with primary := prim' })

/-- `delete`; `error` models the `KeyError` on a record lacking `user_id`. -/
def delete (s : RState) (now : Nat) (tok : String) : OpRes Bool × RState :=
  match get s now tok with
  | none => (.ok false, s)
  | some d =>
      match d.user_id with
      | some uid =>
          (.ok true,
            { s with
              primary := pdel s.primary tok
              userZ := uzrem s.userZ uid tok
              expiryZ := zremZ s.expiryZ tok
              pending := sremL s.pending tok
              used := sremL s.used tok
              idMap :=
                match d.id with
                | some i => if i = 0 then s.idMap else iddel s.idMap i
                | none => s.idMap })
      | none => (.error, s)

/-- `find_expired` (no `before` argument: `score ≤ now`). -/
def find_expired (s : RState) (now : Nat) : List String :=
  zrangeLe s.expiryZ now

/-- `validate_token`; `none` models the exception on a partial record. -/
def validate_token (s : RState) (now : Nat) (tok : String) :
    Option (Bool × Option String) :=
  match get s now tok with
  | none => some (false, some "Invalid token")
  | some d =>
      match d.is_used with
      | none => none
      | some true => some (false, some "Token already used")
      | some false =>
          match d.token_expires with
          | none => none
          | some exp =>
              if exp < now then some (false, some "Token expired")
              else some (true, none)

/-- `use_token`: absent → `False`; already used → reuse warning and `False`;
otherwise `update(token, {"is_used": True})`.  `none` models the `KeyError`
when the record lacks `is_used`. -/
def use_token (s : RState) (now : Nat) (tok : String) : Option (Bool × RState) :=
  match get s now tok with
  | none => some (false, s)
  | some d =>
      match d.is_used with
      | none => none
      | some true => some (false, s)
      | some false => some (update s tok [("is_used", .b true)] now)

/-- One batch of deletions inside `cleanup_expired`. -/
def cleanupBatch (now : Nat) (acc : Nat × RState) (batch : List String) : Nat × RState :=
  batch.foldl
    (fun (acc : Nat × RState) tok =>
      match delete acc.2 now tok with
      | (.ok true, s') => (acc.1 + 1, s')
      | (.ok false, s') => (acc.1, s')
      | (.error, s') => (acc.1, s'))
    acc

/-- `cleanup_expired` (reset tokens). -/
def cleanup_expired (s : RState) (now : Nat) (batch_size : Nat) : Option (Nat × RState) :=
  match batch_size with
  | 0 => none
  | b + 1 => some ((chunks1 b (find_expired s now)).foldl (cleanupBatch now) (0, s))

end PasswordResetTokenRepository

namespace UserSessionRepository

/-! ### Caller-visible operation traces for the session manager -/

/-- Number of owner-index entries with score ≥ t (the records `find_by_user`
with `active_only=True` can see at instant `t`). -/
def countGe (z : ZSet) (t : Nat) : Nat :=
  z.countP (fun q => decide (t ≤ q.2))

/-- Number of owner-index entries with score > t (what
`_check_session_limits` treats as live). -/
def countGt (z : ZSet) (t : Nat) : Nat :=
  z.countP (fun q => decide (t < q.2))

/-- One state-mutating call a caller can make on the session manager. -/
inductive SOp where
  | createOp (user_id : Nat) (ip ua : String) (ttl_hours : Nat) (tok : String)
  | touchOp (tok : String)
  | extendOp (tok : String) (additional_hours : Nat)
  | deleteOp (tok : String)
  | cleanupOp (batch_size : Nat)
deriving DecidableEq, Repr

/-- The state after one call at wall-clock instant `now` (return values and
exceptions are discarded; an operation that raises leaves the state as the
partial immediate effects it had already committed). -/
def applyOp (s : SState) (now : Nat) : SOp → SState
  | .createOp uid ip ua ttl tok => (create s uid ip ua ttl now tok).2
  | .touchOp tok => (update_activity s tok now).2
  | .extendOp tok h => (extend s tok h now).2
  | .deleteOp tok => (delete s now tok).2
  | .cleanupOp b =>
      match cleanup_expired s now b with
      | some r => r.2
      | none => s

/-- Run a timed list of calls left to right. -/
def runOps (s : SState) : List (Nat × SOp) → SState :=
  List.foldl (fun s p => applyOp s p.1 p.2) s

/-- The timestamps of a trace are non-decreasing, starting no earlier
than `t0` (wall-clock time only moves forward). -/
def Chrono : Nat → List (Nat × SOp) → Bool
  | _, [] => true
  | t0, (t, _) :: rest => (decide (t0 ≤ t)) && Chrono t rest

/-- A `create` call runs at a boundary-free instant when no owner-index entry
of its owner has a score exactly equal to the current time (such an entry
counts as expired for `_check_session_limits` but as active for
`find_by_user`).  All other calls are unconstrained. -/
def boundaryFree (s : SState) (now : Nat) : SOp → Bool
  | .createOp uid _ _ _ _ =>
      (uzget s.userZ uid).countP (fun q => decide (q.2 = now)) = 0
  | _ => true

/-- States reachable from the empty store through manager calls at
non-decreasing instants, every `create` running at a boundary-free instant.
`Reach s t` also fixes `t` as the observation instant (time may pass after
the last call via `tick`). -/
inductive Reach : SState → Nat → Prop where
  | init : Reach emptySState 0
  | step {s : SState} {t : Nat} (t' : Nat) (op : SOp) :
      Reach s t → t ≤ t' → boundaryFree s t' op = true → Reach (applyOp s t' op) t'
  | tick {s : SState} {t : Nat} (t' : Nat) : Reach s t → t ≤ t' → Reach s t'

/-- The inductive invariant behind the per-owner cardinality bound, observed
at instant `t`: (a) every owner index holds at most `MAX_SESSIONS_PER_USER`
entries with score ≥ t, and (b) every live primary record carrying a
`user_id` appears in that owner's index with score equal to its own expireat
time (so `extend` re-scores an existing member rather than adding one). -/
def SessInv (s : SState) (t : Nat) : Prop :=
  (∀ uid, countGe (uzget s.userZ uid) t ≤ MAX_SESSIONS_PER_USER) ∧
  (∀ tok e uid, plookup s.primary tok = some e → e.alive t = true →
    parseNatF e.fields "user_id" = some uid →
    ∃ x, e.expAt = some x ∧ zscoreOf (uzget s.userZ uid) tok = some x)

end UserSessionRepository

/-! ### Observation helpers and concrete states used by the theorems -/

/-- The raw value of one field of one stored hash (`HGET token field`). -/
def fieldOfTok (p : Primary) (tok f : String) : Option RVal :=
  (plookup p tok).bind (fun e => lookupF e.fields f)

/-- The expireat time of a stored key, when the key physically exists. -/
def expOfTok (p : Primary) (tok : String) : Option (Option Nat) :=
  (plookup p tok).map HEntry.expAt

namespace UserSessionRepository

/-- A fully populated session hash entry as `create` writes it. -/
def sessEntry (uid : Nat) (tok : String) (sid exp act crt : Nat) (ip ua : String) : HEntry :=
  { fields :=
      [("id", .num sid), ("user_id", .num uid), ("session_token", .str tok),
       ("expires_at", .time exp), ("ip_address", .str ip), ("user_agent", .str ua),
       ("last_activity_at", .time act), ("created_at", .time crt)]
    expAt := some exp }

/-- One live session `"tk"` of user 1, expiring at 10000. -/
def sLive : SState :=
  { primary := [("tk", sessEntry 1 "tk" 1 10000 0 0 "10.0.0.1" "ua")]
    userZ := [(1, [("tk", 10000)])]
    expiryZ := [("tk", 10000)]
    activityZ := [("tk", 0)]
    ipSets := [("10.0.0.1", { members := ["tk"], expAt := some 86400 })]
    idMap := [(1, "tk")]
    idSeq := 1 }

/-- One session `"tk"` of user 1 whose key self-expired at 10 (the secondary
index entries are still present). -/
def sExpired : SState :=
  { primary := [("tk", sessEntry 1 "tk" 1 10 0 0 "10.0.0.1" "ua")]
    userZ := [(1, [("tk", 10)])]
    expiryZ := [("tk", 10)]
    activityZ := [("tk", 0)]
    ipSets := [("10.0.0.1", { members := ["tk"], expAt := some 86400 })]
    idMap := [(1, "tk")]
    idSeq := 1 }

/-- Five sessions of user 1, all self-expired (keys gone at times 10..14),
their index entries still present — the state `cleanup_expired` is meant to
reclaim. -/
def sExpired5 : SState :=
  { primary :=
      [("a", sessEntry 1 "a" 1 10 0 0 "ip" "ua"), ("b", sessEntry 1 "b" 2 11 0 0 "ip" "ua"),
       ("c", sessEntry 1 "c" 3 12 0 0 "ip" "ua"), ("d", sessEntry 1 "d" 4 13 0 0 "ip" "ua"),
       ("e", sessEntry 1 "e" 5 14 0 0 "ip" "ua")]
    userZ := [(1, [("a", 10), ("b", 11), ("c", 12), ("d", 13), ("e", 14)])]
    expiryZ := [("a", 10), ("b", 11), ("c", 12), ("d", 13), ("e", 14)]
    activityZ := [("a", 0), ("b", 0), ("c", 0), ("d", 0), ("e", 0)]
    ipSets := [("ip", { members := ["a", "b", "c", "d", "e"], expAt := some 86400 })]
    idMap := [(1, "a"), (2, "b"), (3, "c"), (4, "d"), (5, "e")]
    idSeq := 5 }

/-- Fifteen live sessions for owner 1, created at instant 0 with a 2-hour
TTL: the owner is exactly at `MAX_SESSIONS_PER_USER`. -/
def tr15 : List (Nat × SOp) :=
  (List.range 15).map (fun i => (0, SOp.createOp 1 "ip" "ua" 2 ("t" ++ toString i)))

def s15 : SState := runOps emptySState tr15

/-- Sixteen `create` calls for owner 1: one session expiring exactly at 3600,
fourteen expiring at 7200, then a sixteenth create at instant 3600 — the
instant at which the first session's score equals the clock. -/
def tr16 : List (Nat × SOp) :=
  ((0, SOp.createOp 1 "ip" "ua" 1 "s0") ::
    (List.range 14).map (fun i => (0, SOp.createOp 1 "ip" "ua" 2 ("t" ++ toString i)))) ++
    [(3600, SOp.createOp 1 "ip" "ua" 2 "zz")]

/-- The six state components `cleanup_expired` can touch, observed at one dead
token: the fold over `delete` never reclaims them. -/
def DeadTokPreserved (s0 s' : SState) (tok : String) (i0 : Nat) : Prop :=
  plookup s'.primary tok = plookup s0.primary tok ∧
  zscoreOf s'.expiryZ tok = zscoreOf s0.expiryZ tok ∧
  zscoreOf s'.activityZ tok = zscoreOf s0.activityZ tok ∧
  (∀ u, zscoreOf (uzget s'.userZ u) tok = zscoreOf (uzget s0.userZ u) tok) ∧
  alookup s'.idMap i0 = some tok ∧
  (∀ tok' e', plookup s'.primary tok' = some e' → plookup s0.primary tok' = some e')

end UserSessionRepository

namespace PasswordResetTokenRepository

/-- A fully populated reset-token hash entry as `create` writes it. -/
def resetEntry (uid : Nat) (tok : String) (tid exp crt : Nat) (used : Bool)
    (usedAt : Option Nat) : HEntry :=
  { fields :=
      [("id", .num tid), ("user_id", .num uid), ("reset_token", .str tok),
       ("token_expires", .time exp), ("is_used", .str (if used then "1" else "0")),
       ("created_at", .time crt),
       ("used_at", match usedAt with | some t => .time t | none => .emptyS)]
    expAt := some exp }

/-- One pending (live, unused) reset token `"rk"` of user 7. -/
def rPending : RState :=
  { primary := [("rk", resetEntry 7 "rk" 1 3600 0 false none)]
    userZ := [(7, [("rk", 3600)])]
    expiryZ := [("rk", 3600)]
    pending := ["rk"]
    used := []
    idMap := [(1, "rk")]
    idSeq := 1 }

/-- One used reset token `"rk"` of user 7 (used at 5). -/
def rUsed : RState :=
  { primary := [("rk", resetEntry 7 "rk" 1 3600 0 true (some 5))]
    userZ := [(7, [("rk", 3600)])]
    expiryZ := [("rk", 3600)]
    pending := []
    used := ["rk"]
    idMap := [(1, "rk")]
    idSeq := 1 }

/-- The state after the successful `use_token` transaction (what
`update(token, {"is_used": True})` commits). -/
def useTokenNext (s : RState) (now : Nat) (tok : String) : RState :=
  (update s tok [("is_used", UVal.b true)] now).2

/-- The state after `update(token, {"is_used": False})` commits. -/
def unuseNext (s : RState) (now : Nat) (tok : String) : RState :=
  (update s tok [("is_used", UVal.b false)] now).2

end PasswordResetTokenRepository

/-! ## Basic lemmas on the store primitives -/

theorem alookup_aupsert_self [DecidableEq κ] (l : List (κ × α)) (k : κ) (v : α) :
    alookup (aupsert l k v) k = some v := by
  induction l with
  | nil => simp [aupsert, alookup]
  | cons hd tl ih =>
      obtain ⟨k', v'⟩ := hd
      by_cases h : k' = k
      · simp [aupsert, alookup, h]
      · simp [aupsert, alookup, h, ih]

theorem alookup_aupsert_ne [DecidableEq κ] (l : List (κ × α)) {k0 k : κ} (v : α)
    (h : k0 ≠ k) : alookup (aupsert l k0 v) k = alookup l k := by
  induction l with
  | nil => simp [aupsert, alookup, h]
  | cons hd tl ih =>
      obtain ⟨k', v'⟩ := hd
      by_cases h2 : k' = k0
      · subst h2; simp [aupsert, alookup, h]
      · by_cases h3 : k' = k
        · simp [aupsert, alookup, h2, h3, Ne.symm h]
        · simp [aupsert, alookup, h2, h3, ih]

theorem alookup_adel_self [DecidableEq κ] (l : List (κ × α)) (k : κ) :
    alookup (adel l k) k = none := by
  induction l with
  | nil => rfl
  | cons hd tl ih =>
      obtain ⟨k', v'⟩ := hd
      by_cases h : k' = k
      · simpa [adel, List.filter_cons, h] using ih
      · simpa [adel, List.filter_cons, alookup, h] using ih

theorem alookup_adel_ne [DecidableEq κ] (l : List (κ × α)) {k0 k : κ} (h : k0 ≠ k) :
    alookup (adel l k0) k = alookup l k := by
  induction l with
  | nil => rfl
  | cons hd tl ih =>
      obtain ⟨k', v'⟩ := hd
      by_cases h2 : k' = k0
      · simpa [adel, List.filter_cons, alookup, h2, h] using ih
      · by_cases h3 : k' = k
        · simp [adel, List.filter_cons, alookup, h2, h3, Ne.symm h]
        · simpa [adel, List.filter_cons, alookup, h2, h3] using ih

theorem aupsert_ne_nil [DecidableEq κ] (l : List (κ × α)) (k : κ) (v : α) :
    aupsert l k v ≠ [] := by
  cases l with
  | nil => simp [aupsert]
  | cons hd tl =>
      obtain ⟨k', v'⟩ := hd
      by_cases h : k' = k <;> simp [aupsert, h]

theorem hsetFields_nil (base : Fields) : hsetFields base [] = base := rfl

theorem hsetFields_cons (base : Fields) (kv : String × RVal) (kvs : Fields) :
    hsetFields base (kv :: kvs) = hsetFields (upsertF base kv.1 kv.2) kvs := rfl

theorem hsetFields_ne_nil (kvs : Fields) (base : Fields) (hb : base ≠ []) :
    hsetFields base kvs ≠ [] := by
  induction kvs generalizing base with
  | nil => simpa [hsetFields_nil] using hb
  | cons kv kvs ih => rw [hsetFields_cons]; exact ih _ (aupsert_ne_nil _ _ _)

theorem hsetFields_cons_ne_nil (base : Fields) (kv : String × RVal) (kvs : Fields) :
    hsetFields base (kv :: kvs) ≠ [] := by
  rw [hsetFields_cons]; exact hsetFields_ne_nil _ _ (aupsert_ne_nil _ _ _)

theorem lookupF_hsetFields_not_mem (kvs : Fields) (base : Fields) (k : String)
    (h : k ∉ kvs.map Prod.fst) :
    lookupF (hsetFields base kvs) k = lookupF base k := by
  induction kvs generalizing base with
  | nil => rfl
  | cons kv kvs ih =>
      rw [hsetFields_cons]
      have h1 : kv.1 ≠ k := by rintro rfl; exact h (by simp)
      have h2 : k ∉ kvs.map Prod.fst := fun hm => h (by simp [hm])
      rw [ih _ h2]
      exact alookup_aupsert_ne _ _ h1

theorem uzget_uzset_self (uz : UserZ) (uid : Nat) (z : ZSet) :
    uzget (uzset uz uid z) uid = z := by
  simp [uzget, uzset, alookup_aupsert_self]

theorem uzget_uzset_ne (uz : UserZ) {u0 u : Nat} (z : ZSet) (h : u0 ≠ u) :
    uzget (uzset uz u0 z) u = uzget uz u := by
  simp [uzget, uzset, alookup_aupsert_ne _ _ h]

/-! ## C3: `update_activity` on an absent token -/

open UserSessionRepository in
/-- C3 (counterexample): for a token with no session record in the primary
store, `update_activity` returns `true`, not `false` — the claim's negative
half fails because `HSET` silently creates the hash. -/
theorem C3_touch_absent_returns_true :
    UserSessionRepository.get emptySState 5 "tk" = none ∧
    (update_activity emptySState "tk" 5).1 = true := by
  decide

open UserSessionRepository in
/-- C3 (amended): `update_activity` returns `true` regardless of the token's
presence (there is no existence check; on an absent token it creates a stray
partial hash and still inserts the token into the activity index); on a live
session it does set `last_activity_at = now`, update the activity index, and
return `true`. -/
theorem C3_update_activity_amended (s : SState) (tok : String) (now : Nat) :
    (update_activity s tok now).1 = true ∧
    zscoreOf (update_activity s tok now).2.activityZ tok = some now ∧
    (∀ e, plookup s.primary tok = some e → e.alive now = true →
      fieldOfTok (update_activity s tok now).2.primary tok "last_activity_at" =
        some (.time now) ∧
      expOfTok (update_activity s tok now).2.primary tok = some e.expAt) := by
  refine ⟨rfl, ?_, ?_⟩
  · simp [update_activity, zscoreOf, zaddZ, alookup_aupsert_self]
  · intro e he halive
    have hprim : (update_activity s tok now).2.primary =
        pupsert s.primary tok
          { e with fields := hsetFields e.fields [("last_activity_at", .time now)] } := by
      simp [update_activity, hsetP, he, halive]
    constructor
    · rw [hprim]
      show (plookup _ tok).bind _ = _
      rw [show plookup (pupsert s.primary tok
            { e with fields := hsetFields e.fields [("last_activity_at", RVal.time now)] }) tok
          = some { e with fields := hsetFields e.fields [("last_activity_at", RVal.time now)] }
        from alookup_aupsert_self _ _ _]
      show lookupF (hsetFields e.fields [("last_activity_at", RVal.time now)])
          "last_activity_at" = _
      rw [hsetFields_cons, hsetFields_nil]
      exact alookup_aupsert_self _ _ _
    · rw [hprim]
      show (plookup _ tok).map _ = _
      rw [show plookup (pupsert s.primary tok
            { e with fields := hsetFields e.fields [("last_activity_at", RVal.time now)] }) tok
          = some { e with fields := hsetFields e.fields [("last_activity_at", RVal.time now)] }
        from alookup_aupsert_self _ _ _]
      rfl

open UserSessionRepository in
/-- C3 (witness): the amended theorem at a live concrete session. -/
theorem C3_update_activity_amended_witness :
    (update_activity sLive "tk" 5).1 = true ∧
    fieldOfTok (update_activity sLive "tk" 5).2.primary "tk" "last_activity_at" =
      some (.time 5) := by
  have h := C3_update_activity_amended sLive "tk" 5
  exact ⟨h.1, (h.2.2 (sessEntry 1 "tk" 1 10000 0 0 "10.0.0.1" "ua") (by decide) (by decide)).1⟩

/-! ## C2: the reset-token `update` on absent and present tokens -/

open PasswordResetTokenRepository in
/-- C2 (counterexample): `update` on an absent token does not fail with
NotFound: it returns `true` and changes the store (the `HSET` creates a new
hash for the token). -/
theorem C2_update_absent_creates :
    PasswordResetTokenRepository.get emptyRState 5 "rk" = none ∧
    (PasswordResetTokenRepository.update emptyRState "rk" [("is_used", UVal.b true)] 5).1 = true ∧
    (PasswordResetTokenRepository.update emptyRState "rk" [("is_used", UVal.b true)] 5).2 ≠ emptyRState := by
  decide

open PasswordResetTokenRepository in
/-- C2 (amended): `update` never checks existence: on an absent token (with a
non-empty update set) it returns `true` and creates a hash holding only the
updated fields; on a present live token it updates exactly the fields of
`redis_updates` (the given fields, plus `used_at` when `is_used` is given),
leaving every other field and the key's TTL untouched. -/
theorem C2_update_amended (s : RState) (tok : String)
    (updates : List (String × UVal)) (now : Nat) :
    (plookup s.primary tok = none → redisUpdates updates now ≠ [] →
      (PasswordResetTokenRepository.update s tok updates now).1 = true ∧
      plookup (PasswordResetTokenRepository.update s tok updates now).2.primary tok ≠ none) ∧
    (∀ e f, plookup s.primary tok = some e → e.alive now = true →
      f ∉ (redisUpdates updates now).map Prod.fst →
      fieldOfTok (PasswordResetTokenRepository.update s tok updates now).2.primary tok f =
        fieldOfTok s.primary tok f ∧
      expOfTok (PasswordResetTokenRepository.update s tok updates now).2.primary tok =
        expOfTok s.primary tok) := by
  by_cases hru : (redisUpdates updates now).isEmpty
  · have hs : PasswordResetTokenRepository.update s tok updates now = (false, s) := by
      simp [PasswordResetTokenRepository.update, hru]
    constructor
    · intro _ hne
      exact absurd (List.isEmpty_iff.mp hru) hne
    · intro e f he halive hf
      rw [hs]
      exact ⟨rfl, rfl⟩
  · have key : (PasswordResetTokenRepository.update s tok updates now).1 = true ∧
        (PasswordResetTokenRepository.update s tok updates now).2.primary =
          hsetP s.primary now tok (redisUpdates updates now) := by
      simp only [PasswordResetTokenRepository.update, Bool.not_eq_true] at hru ⊢
      rw [hru]
      simp only [Bool.false_eq_true, if_false]
      split
      · exact ⟨rfl, rfl⟩
      · exact ⟨rfl, rfl⟩
    constructor
    · intro habs _
      refine ⟨key.1, ?_⟩
      rw [key.2]
      simp only [hsetP, habs]
      rw [show plookup (pupsert s.primary tok
            { fields := hsetFields [] (redisUpdates updates now), expAt := none }) tok
          = some { fields := hsetFields [] (redisUpdates updates now), expAt := none }
        from alookup_aupsert_self _ _ _]
      simp
    · intro e f he halive hf
      have hprim : (PasswordResetTokenRepository.update s tok updates now).2.primary =
          pupsert s.primary tok
            { e with fields := hsetFields e.fields (redisUpdates updates now) } := by
        rw [key.2]; simp [hsetP, he, halive]
      rw [hprim]
      constructor
      · show (plookup _ tok).bind _ = _
        rw [show plookup (pupsert s.primary tok
              { e with fields := hsetFields e.fields (redisUpdates updates now) }) tok
            = some { e with fields := hsetFields e.fields (redisUpdates updates now) }
          from alookup_aupsert_self _ _ _]
        show lookupF (hsetFields e.fields (redisUpdates updates now)) f = _
        rw [lookupF_hsetFields_not_mem _ _ _ hf]
        simp [fieldOfTok, he]
      · show (plookup _ tok).map _ = _
        rw [show plookup (pupsert s.primary tok
              { e with fields := hsetFields e.fields (redisUpdates updates now) }) tok
            = some { e with fields := hsetFields e.fields (redisUpdates updates now) }
          from alookup_aupsert_self _ _ _]
        simp [expOfTok, he]

open PasswordResetTokenRepository in
/-- C2 (witness): the amended theorem at an absent token (empty store) and at
a present live token, both at concrete inputs. -/
theorem C2_update_amended_witness :
    (PasswordResetTokenRepository.update emptyRState "rk" [("note", UVal.s "x")] 5).1 = true ∧
    fieldOfTok (PasswordResetTokenRepository.update rPending "rk" [("note", UVal.s "x")] 5).2.primary
      "rk" "user_id" = some (.num 7) := by
  have h1 := (C2_update_amended emptyRState "rk" [("note", UVal.s "x")] 5).1 (by decide) (by decide)
  have h2 := ((C2_update_amended rPending "rk" [("note", UVal.s "x")] 5).2
    (resetEntry 7 "rk" 1 3600 0 false none) "user_id" (by decide) (by decide) (by decide)).1
  refine ⟨h1.1, ?_⟩
  rw [h2]
  decide

/-! ## C4: `validate` on an expired token -/

open UserSessionRepository in
/-- C4 (counterexample): the session `"tk"` has `expires_at = 10 ≤ now = 11`,
and `validate_session` does return invalid — but with reason
`"Invalid session"` (the record already self-expired, so `get` sees nothing),
not the claimed reason `"Session expired"`. -/
theorem C4_expired_reason_counterexample :
    fieldOfTok sExpired.primary "tk" "expires_at" = some (.time 10) ∧
    UserSessionRepository.get sExpired 11 "tk" = none ∧
    validate_session sExpired 11 "tk" = some (false, some "Invalid session") ∧
    validate_session sExpired 11 "tk" ≠ some (false, some "Session expired") := by
  decide

open UserSessionRepository PasswordResetTokenRepository in
/-- C4 (amended): for every token whose stored key has self-expired
(`expAt < now`; the key's expireat always equals the record's `expires_at`),
`validate` returns invalid even if `cleanup_expired` has never run — but the
reason is the not-found one (`"Invalid session"` / `"Invalid token"`), because
the store's own TTL removes the record no later than `expires_at`; the
`"Session expired"` / `"Token expired"` branch is unreachable then. -/
theorem C4_validate_selfexpired_amended :
    (∀ (s : SState) (tok : String) (e : HEntry) (x now : Nat),
      plookup s.primary tok = some e → e.expAt = some x → x < now →
      validate_session s now tok = some (false, some "Invalid session")) ∧
    (∀ (s : RState) (tok : String) (e : HEntry) (x now : Nat),
      plookup s.primary tok = some e → e.expAt = some x → x < now →
      validate_token s now tok = some (false, some "Invalid token")) := by
  constructor
  · intro s tok e x now he hx hlt
    have hdead : e.alive now = false := by
      simp [HEntry.alive, hx]
      omega
    simp [validate_session, UserSessionRepository.get, he, hdead]
  · intro s tok e x now he hx hlt
    have hdead : e.alive now = false := by
      simp [HEntry.alive, hx]
      omega
    simp [validate_token, PasswordResetTokenRepository.get, he, hdead]

open UserSessionRepository PasswordResetTokenRepository in
/-- C4 (witness): the amended theorem at concrete expired session and reset
tokens. -/
theorem C4_validate_selfexpired_amended_witness :
    validate_session sExpired 11 "tk" = some (false, some "Invalid session") ∧
    validate_token rPending 4000 "rk" = some (false, some "Invalid token") :=
  ⟨C4_validate_selfexpired_amended.1 sExpired "tk"
      (sessEntry 1 "tk" 1 10 0 0 "10.0.0.1" "ua") 10 11 (by decide) (by decide) (by decide),
    C4_validate_selfexpired_amended.2 rPending "rk"
      (resetEntry 7 "rk" 1 3600 0 false none) 3600 4000 (by decide) (by decide) (by decide)⟩

/-! ## Inversion and set lemmas used by the reset-token claims -/

theorem reset_get_inv (s : PasswordResetTokenRepository.RState) (now : Nat) (tok : String)
    (d : PasswordResetTokenRepository.RRec)
    (h : PasswordResetTokenRepository.get s now tok = some d) :
    ∃ e, plookup s.primary tok = some e ∧ e.alive now = true ∧ e.fields.isEmpty = false ∧
      d = PasswordResetTokenRepository._parse_token_data e.fields := by
  unfold PasswordResetTokenRepository.get at h
  split at h
  · exact absurd h (by simp)
  · rename_i e he
    by_cases h1 : e.alive now = true
    · by_cases h2 : e.fields.isEmpty = true
      · rw [if_pos h1, if_pos h2] at h; exact absurd h (by simp)
      · rw [if_pos h1, if_neg h2] at h
        exact ⟨e, he, h1, by simpa using h2, (Option.some.injEq _ _).mp h.symm⟩
    · rw [if_neg h1] at h; exact absurd h (by simp)

theorem session_get_inv (s : UserSessionRepository.SState) (now : Nat) (tok : String)
    (d : UserSessionRepository.SRec)
    (h : UserSessionRepository.get s now tok = some d) :
    ∃ e, plookup s.primary tok = some e ∧ e.alive now = true ∧ e.fields.isEmpty = false ∧
      d = UserSessionRepository._parse_session_data e.fields := by
  unfold UserSessionRepository.get at h
  split at h
  · exact absurd h (by simp)
  · rename_i e he
    by_cases h1 : e.alive now = true
    · by_cases h2 : e.fields.isEmpty = true
      · rw [if_pos h1, if_pos h2] at h; exact absurd h (by simp)
      · rw [if_pos h1, if_neg h2] at h
        exact ⟨e, he, h1, by simpa using h2, (Option.some.injEq _ _).mp h.symm⟩
    · rw [if_neg h1] at h; exact absurd h (by simp)

theorem mem_saddL (l : List String) (tok : String) :
    tok ∈ PasswordResetTokenRepository.saddL l tok := by
  by_cases h : tok ∈ l <;> simp [PasswordResetTokenRepository.saddL, h]

theorem not_mem_sremL (l : List String) (tok : String) :
    tok ∉ PasswordResetTokenRepository.sremL l tok := by
  simp [PasswordResetTokenRepository.sremL, List.mem_filter]

theorem reset_get_of_entry (s : PasswordResetTokenRepository.RState) (now : Nat)
    (tok : String) (e : HEntry) (he : plookup s.primary tok = some e)
    (ha : e.alive now = true) (hn : e.fields.isEmpty = false) :
    PasswordResetTokenRepository.get s now tok =
      some (PasswordResetTokenRepository._parse_token_data e.fields) := by
  simp [PasswordResetTokenRepository.get, he, ha, hn]

theorem session_get_of_entry (s : UserSessionRepository.SState) (now : Nat)
    (tok : String) (e : HEntry) (he : plookup s.primary tok = some e)
    (ha : e.alive now = true) (hn : e.fields.isEmpty = false) :
    UserSessionRepository.get s now tok =
      some (UserSessionRepository._parse_session_data e.fields) := by
  simp [UserSessionRepository.get, he, ha, hn]

/-! ## C5: `use_token` is a one-way transition -/

open PasswordResetTokenRepository in
/-- C5: on a pending (live, unused) reset token the first `use_token` returns
`true`, flips `is_used`, sets `used_at = now`, and moves the token from the
pending set to the used set in one transaction; a subsequent call on the same
token returns `false` (after logging a reuse warning) and changes nothing —
the transition cannot be undone through this call. -/
theorem C5_use_token_one_way (s : RState) (tok : String) (now : Nat) (d : RRec)
    (hget : PasswordResetTokenRepository.get s now tok = some d)
    (hunused : d.is_used = some false) :
    use_token s now tok = some (true, useTokenNext s now tok) ∧
    (PasswordResetTokenRepository.get (useTokenNext s now tok) now tok).bind
      (fun r => r.is_used) = some true ∧
    (PasswordResetTokenRepository.get (useTokenNext s now tok) now tok).bind
      (fun r => r.used_at) = some now ∧
    tok ∈ (useTokenNext s now tok).used ∧
    tok ∉ (useTokenNext s now tok).pending ∧
    use_token (useTokenNext s now tok) now tok = some (false, useTokenNext s now tok) := by
  obtain ⟨e, he, halive, hne, hd⟩ := reset_get_inv s now tok d hget
  have hru : redisUpdates [("is_used", UVal.b true)] now
      = [("is_used", RVal.str "1"), ("used_at", RVal.time now)] := rfl
  have hfst : (PasswordResetTokenRepository.update s tok [("is_used", UVal.b true)] now).1
      = true := by
    simp [PasswordResetTokenRepository.update, hru, lookupF, alookup]
  have hstate : useTokenNext s now tok =
      { s with
        primary := hsetP s.primary now tok [("is_used", RVal.str "1"), ("used_at", RVal.time now)]
        pending := sremL s.pending tok
        used := saddL s.used tok } := by
    simp [useTokenNext, PasswordResetTokenRepository.update, hru, lookupF, alookup]
  have hpair : PasswordResetTokenRepository.update s tok [("is_used", UVal.b true)] now
      = (true, useTokenNext s now tok) := by
    rcases hu : PasswordResetTokenRepository.update s tok [("is_used", UVal.b true)] now with ⟨a, b⟩
    have ha : a = true := by rw [← hfst, hu]
    have hb : b = useTokenNext s now tok := by rw [useTokenNext, hu]
    rw [ha, hb]
  have hentry : plookup (useTokenNext s now tok).primary tok =
      some { e with fields := hsetFields e.fields [("is_used", RVal.str "1"), ("used_at", RVal.time now)] } := by
    rw [hstate]
    show plookup (hsetP s.primary now tok _) tok = _
    simp only [hsetP, he, halive, if_true]
    exact alookup_aupsert_self _ _ _
  have halive2 : ({ e with fields := hsetFields e.fields [("is_used", RVal.str "1"), ("used_at", RVal.time now)] } : HEntry).alive now = true :=
    halive
  have hne2 : ({ e with fields := hsetFields e.fields [("is_used", RVal.str "1"), ("used_at", RVal.time now)] } : HEntry).fields.isEmpty = false := by
    have h3 := hsetFields_cons_ne_nil e.fields ("is_used", RVal.str "1") [("used_at", RVal.time now)]
    simpa [List.isEmpty_iff] using h3
  have hget2 : PasswordResetTokenRepository.get (useTokenNext s now tok) now tok
      = some (_parse_token_data (hsetFields e.fields [("is_used", RVal.str "1"), ("used_at", RVal.time now)])) :=
    reset_get_of_entry _ _ _ _ hentry halive2 hne2
  have hflook : lookupF (hsetFields e.fields [("is_used", RVal.str "1"), ("used_at", RVal.time now)]) "is_used"
      = some (RVal.str "1") := by
    rw [hsetFields_cons, hsetFields_cons, hsetFields_nil]
    show alookup (aupsert (aupsert e.fields "is_used" (RVal.str "1")) "used_at" (RVal.time now)) "is_used" = _
    rw [alookup_aupsert_ne _ _ (by decide : "used_at" ≠ "is_used")]
    exact alookup_aupsert_self _ _ _
  have hulook : lookupF (hsetFields e.fields [("is_used", RVal.str "1"), ("used_at", RVal.time now)]) "used_at"
      = some (RVal.time now) := by
    rw [hsetFields_cons, hsetFields_cons, hsetFields_nil]
    exact alookup_aupsert_self _ _ _
  have hparse_used : (_parse_token_data (hsetFields e.fields [("is_used", RVal.str "1"), ("used_at", RVal.time now)])).is_used = some true := by
    simp [_parse_token_data, parseIsUsed, hflook]
  have hparse_usedat : (_parse_token_data (hsetFields e.fields [("is_used", RVal.str "1"), ("used_at", RVal.time now)])).used_at = some now := by
    simp [_parse_token_data, UserSessionRepository.parseTimeF, hulook]
  refine ⟨?_, ?_, ?_, ?_, ?_, ?_⟩
  · simp only [use_token, hget, hunused]
    rw [hpair]
  · rw [hget2]; simpa using hparse_used
  · rw [hget2]; simpa using hparse_usedat
  · rw [hstate]; exact mem_saddL _ _
  · rw [hstate]; exact not_mem_sremL _ _
  · simp only [use_token, hget2, hparse_used]

open PasswordResetTokenRepository in
/-- C5 (witness): the theorem at the concrete pending token `"rk"`. -/
theorem C5_use_token_one_way_witness :
    use_token rPending 5 "rk" = some (true, useTokenNext rPending 5 "rk") ∧
    (PasswordResetTokenRepository.get (useTokenNext rPending 5 "rk") 5 "rk").bind
      (fun r => r.is_used) = some true ∧
    "rk" ∈ (useTokenNext rPending 5 "rk").used := by
  have h := C5_use_token_one_way rPending "rk" 5
    (PasswordResetTokenRepository._parse_token_data
      (resetEntry 7 "rk" 1 3600 0 false none).fields) (by decide) (by decide)
  exact ⟨h.1, h.2.1, h.2.2.2.1⟩

/-! ## C10: clearing `is_used` does not move set membership back -/

open PasswordResetTokenRepository in
/-- C10: for a live reset token in the used set, `update(t, {"is_used": False})`
returns `true`, sets `is_used` back to `false` and clears `used_at`, but leaves
both membership sets exactly as they were: the token stays in the used set and
is not re-added to the pending set (only the `is_used = True` direction moves
membership). -/
theorem C10_unmark_keeps_sets (s : RState) (tok : String) (now : Nat) (e : HEntry)
    (he : plookup s.primary tok = some e) (halive : e.alive now = true)
    (hused : tok ∈ s.used) :
    (PasswordResetTokenRepository.update s tok [("is_used", UVal.b false)] now).1 = true ∧
    (unuseNext s now tok).used = s.used ∧
    (unuseNext s now tok).pending = s.pending ∧
    tok ∈ (unuseNext s now tok).used ∧
    (PasswordResetTokenRepository.get (unuseNext s now tok) now tok).bind
      (fun r => r.is_used) = some false ∧
    (PasswordResetTokenRepository.get (unuseNext s now tok) now tok).bind
      (fun r => r.used_at) = none ∧
    (PasswordResetTokenRepository.get (unuseNext s now tok) now tok).isSome = true := by
  have hru : redisUpdates [("is_used", UVal.b false)] now
      = [("is_used", RVal.str "0"), ("used_at", RVal.emptyS)] := rfl
  have hstate : unuseNext s now tok =
      { s with primary := hsetP s.primary now tok [("is_used", RVal.str "0"), ("used_at", RVal.emptyS)] } := by
    simp [unuseNext, PasswordResetTokenRepository.update, hru, lookupF, alookup]
  have hfst : (PasswordResetTokenRepository.update s tok [("is_used", UVal.b false)] now).1
      = true := by
    simp [PasswordResetTokenRepository.update, hru, lookupF, alookup]
  have hentry : plookup (unuseNext s now tok).primary tok =
      some { e with fields := hsetFields e.fields [("is_used", RVal.str "0"), ("used_at", RVal.emptyS)] } := by
    rw [hstate]
    show plookup (hsetP s.primary now tok _) tok = _
    simp only [hsetP, he, halive, if_true]
    exact alookup_aupsert_self _ _ _
  have hne2 : ({ e with fields := hsetFields e.fields [("is_used", RVal.str "0"), ("used_at", RVal.emptyS)] } : HEntry).fields.isEmpty = false := by
    have h3 := hsetFields_cons_ne_nil e.fields ("is_used", RVal.str "0") [("used_at", RVal.emptyS)]
    simpa [List.isEmpty_iff] using h3
  have hget2 : PasswordResetTokenRepository.get (unuseNext s now tok) now tok
      = some (_parse_token_data (hsetFields e.fields [("is_used", RVal.str "0"), ("used_at", RVal.emptyS)])) :=
    reset_get_of_entry _ _ _ _ hentry halive hne2
  have hflook : lookupF (hsetFields e.fields [("is_used", RVal.str "0"), ("used_at", RVal.emptyS)]) "is_used"
      = some (RVal.str "0") := by
    rw [hsetFields_cons, hsetFields_cons, hsetFields_nil]
    show alookup (aupsert (aupsert e.fields "is_used" (RVal.str "0")) "used_at" RVal.emptyS) "is_used" = _
    rw [alookup_aupsert_ne _ _ (by decide : "used_at" ≠ "is_used")]
    exact alookup_aupsert_self _ _ _
  have hulook : lookupF (hsetFields e.fields [("is_used", RVal.str "0"), ("used_at", RVal.emptyS)]) "used_at"
      = some RVal.emptyS := by
    rw [hsetFields_cons, hsetFields_cons, hsetFields_nil]
    exact alookup_aupsert_self _ _ _
  refine ⟨hfst, ?_, ?_, ?_, ?_, ?_, ?_⟩
  · rw [hstate]
  · rw [hstate]
  · rw [hstate]; exact hused
  · rw [hget2]
    simp [_parse_token_data, parseIsUsed, hflook]
  · rw [hget2]
    simp [_parse_token_data, UserSessionRepository.parseTimeF, hulook]
  · rw [hget2]; rfl

open PasswordResetTokenRepository in
/-- C10 (witness): the theorem at the concrete used token `"rk"`. -/
theorem C10_unmark_keeps_sets_witness :
    (PasswordResetTokenRepository.update rUsed "rk" [("is_used", UVal.b false)] 9).1 = true ∧
    (unuseNext rUsed 9 "rk").used = rUsed.used ∧
    (unuseNext rUsed 9 "rk").pending = rUsed.pending ∧
    "rk" ∈ (unuseNext rUsed 9 "rk").used := by
  have h := C10_unmark_keeps_sets rUsed "rk" 9
    (resetEntry 7 "rk" 1 3600 0 true (some 5)) (by decide) (by decide) (by decide)
  exact ⟨h.1, h.2.1, h.2.2.1, h.2.2.2.1⟩

/-! ## C1: `create` at the per-owner cap -/

theorem length_eq_zcountLe_add_countGt (z : ZSet) (t : Nat) :
    z.length = zcountLe z t + UserSessionRepository.countGt z t := by
  induction z with
  | nil => rfl
  | cons hd tl ih =>
      by_cases h : hd.2 ≤ t
      · have h2 : ¬ (t < hd.2) := by omega
        simp [zcountLe, UserSessionRepository.countGt, List.countP_cons, h, h2] at ih ⊢
        omega
      · have h2 : t < hd.2 := by omega
        simp [zcountLe, UserSessionRepository.countGt, List.countP_cons, h, h2] at ih ⊢
        omega

set_option maxRecDepth 100000 in
open UserSessionRepository in
/-- C1 (counterexample): owner 1 holds exactly `MAX_SESSIONS_PER_USER` live
sessions (created through the manager), and a further `create` neither evicts
the earliest-expiring record nor inserts: it returns the rejected outcome
(`None`), although no transactional failure occurred — only the id sequence
advances. -/
theorem C1_at_cap_create_rejects_counterexample :
    Chrono 0 tr15 = true ∧
    (uzget s15.userZ 1).length = 15 ∧
    countGt (uzget s15.userZ 1) 0 = 15 ∧
    UserSessionRepository.create s15 1 "ip" "ua" 2 0 "fresh" =
      (.ok none, { s15 with idSeq := s15.idSeq + 1 }) := by
  decide

open UserSessionRepository in
/-- C1 (amended): when the owner's live-record count (entries with score
strictly above `now`) is at or above `MAX_SESSIONS_PER_USER`, `create` rejects:
it returns `None` without evicting or inserting anything — the only effect is
the already-consumed id-sequence increment.  (The single-record eviction of the
lowest-scored entry runs only on the separate path where the owner's total
entry count exceeds the cap while its live count is below it.) -/
theorem C1_create_at_cap_rejects (s : SState) (uid : Nat) (ip ua : String)
    (ttl now : Nat) (tok : String)
    (hlive : MAX_SESSIONS_PER_USER ≤ countGt (uzget s.userZ uid) now) :
    UserSessionRepository.create s uid ip ua ttl now tok =
      (.ok none, { s with idSeq := s.idSeq + 1 }) := by
  have hlen : (uzget s.userZ uid).length ≥ MAX_SESSIONS_PER_USER := by
    have := List.countP_le_length (l := uzget s.userZ uid)
      (p := fun q => decide (now < q.2))
    calc MAX_SESSIONS_PER_USER ≤ countGt (uzget s.userZ uid) now := hlive
      _ ≤ (uzget s.userZ uid).length := this
  have hsplit := length_eq_zcountLe_add_countGt (uzget s.userZ uid) now
  have hcond : (uzget s.userZ uid).length - zcountLe (uzget s.userZ uid) now ≥
      MAX_SESSIONS_PER_USER := by omega
  have hcheck : _check_session_limits { s with idSeq := s.idSeq + 1 } uid now = false := by
    have huz : uzget ({ s with idSeq := s.idSeq + 1 } : SState).userZ uid =
        uzget s.userZ uid := rfl
    simp only [_check_session_limits, huz]
    rw [if_pos hlen, if_pos hcond]
  simp [UserSessionRepository.create, hcheck]

set_option maxRecDepth 100000 in
open UserSessionRepository in
/-- C1 (witness): the amended theorem at the concrete 15-live-session state. -/
theorem C1_create_at_cap_rejects_witness :
    UserSessionRepository.create s15 1 "ip2" "ua2" 3 0 "fresh2" =
      (.ok none, { s15 with idSeq := s15.idSeq + 1 }) :=
  C1_create_at_cap_rejects s15 1 "ip2" "ua2" 3 0 "fresh2" (by decide)

/-! ## C7: `expires_at = created_at + ttl` after `create` -/

theorem lookupF_hsetFields_mem : ∀ (kvs base : Fields) (k : String) (v : RVal),
    lookupF kvs k = some v → (kvs.map Prod.fst).Nodup →
    lookupF (hsetFields base kvs) k = some v := by
  intro kvs
  induction kvs with
  | nil => intro base k v h1 _; simp [lookupF, alookup] at h1
  | cons kv kvs ih =>
      intro base k v h1 h2
      have h2' : (kv.1 :: kvs.map Prod.fst).Nodup := by rw [List.map_cons] at h2; exact h2
      by_cases hk : kv.1 = k
      · have hnot : k ∉ kvs.map Prod.fst := by
          rw [← hk]; exact (List.nodup_cons.mp h2').1
        have hv : v = kv.2 := by
          simp [lookupF, alookup, hk] at h1
          exact h1.symm
        rw [hsetFields_cons, lookupF_hsetFields_not_mem _ _ _ hnot, hv]
        show alookup (aupsert base kv.1 kv.2) k = some kv.2
        rw [hk]
        exact alookup_aupsert_self _ _ _
      · have h1' : lookupF kvs k = some v := by
          simpa [lookupF, alookup, hk] using h1
        rw [hsetFields_cons]
        exact ih _ _ _ h1' (List.nodup_cons.mp h2').2

/-- After `HSET key mapping` followed by `EXPIREAT key texp`, the key holds
the mapping merged over some base (the old live fields, or nothing) with
expiry `texp`. -/
theorem plookup_hset_expireat (p : Primary) (now : Nat) (tok : String)
    (kvs : Fields) (texp : Nat) :
    ∃ base, plookup (expireatP (hsetP p now tok kvs) now tok texp) tok =
      some { fields := hsetFields base kvs, expAt := some texp } := by
  rcases hb : plookup p tok with _ | e
  · refine ⟨[], ?_⟩
    have h1 : hsetP p now tok kvs =
        pupsert p tok { fields := hsetFields [] kvs, expAt := none } := by
      simp [hsetP, hb]
    have h2 : plookup (hsetP p now tok kvs) tok =
        some { fields := hsetFields [] kvs, expAt := none } := by
      rw [h1]; exact alookup_aupsert_self _ _ _
    have h3 : expireatP (hsetP p now tok kvs) now tok texp =
        pupsert (hsetP p now tok kvs) tok
          { fields := hsetFields [] kvs, expAt := some texp } := by
      simp [expireatP, h2, HEntry.alive]
    rw [h3]; exact alookup_aupsert_self _ _ _
  · by_cases ha : e.alive now = true
    · refine ⟨e.fields, ?_⟩
      have h1 : hsetP p now tok kvs =
          pupsert p tok { e with fields := hsetFields e.fields kvs } := by
        simp [hsetP, hb, ha]
      have h2 : plookup (hsetP p now tok kvs) tok =
          some { e with fields := hsetFields e.fields kvs } := by
        rw [h1]; exact alookup_aupsert_self _ _ _
      have ha2 : ({ e with fields := hsetFields e.fields kvs } : HEntry).alive now = true := ha
      have h3 : expireatP (hsetP p now tok kvs) now tok texp =
          pupsert (hsetP p now tok kvs) tok
            { fields := hsetFields e.fields kvs, expAt := some texp } := by
        simp [expireatP, h2, ha2]
      rw [h3]; exact alookup_aupsert_self _ _ _
    · refine ⟨[], ?_⟩
      have ha' : e.alive now = false := by simpa using ha
      have h1 : hsetP p now tok kvs =
          pupsert p tok { fields := hsetFields [] kvs, expAt := none } := by
        simp [hsetP, hb, ha']
      have h2 : plookup (hsetP p now tok kvs) tok =
          some { fields := hsetFields [] kvs, expAt := none } := by
        rw [h1]; exact alookup_aupsert_self _ _ _
      have h3 : expireatP (hsetP p now tok kvs) now tok texp =
          pupsert (hsetP p now tok kvs) tok
            { fields := hsetFields [] kvs, expAt := some texp } := by
        simp [expireatP, h2, HEntry.alive]
      rw [h3]; exact alookup_aupsert_self _ _ _

/-- C7: after a successful `create` with a positive TTL, the returned record
and a `get` round-trip both show `expires_at = created_at + ttl` (exactly, in
the single-clock-reading model: all `datetime.now()` calls of one operation
agree within clock resolution), and `expires_at > created_at`. -/
theorem C7_create_expiry_roundtrip :
    (∀ (s : UserSessionRepository.SState) (uid : Nat) (ip ua : String) (ttl now : Nat)
        (tok : String),
      1 ≤ ttl →
      UserSessionRepository._check_session_limits { s with idSeq := s.idSeq + 1 } uid now = true →
      (uzget s.userZ uid).length ≤ UserSessionRepository.MAX_SESSIONS_PER_USER →
      (UserSessionRepository.create s uid ip ua ttl now tok).1 =
        .ok (some { id := s.idSeq + 1, user_id := uid, session_token := tok,
                    expires_at := now + ttl * 3600, ip_address := ip, user_agent := ua,
                    last_activity_at := now, created_at := now }) ∧
      (UserSessionRepository.get (UserSessionRepository.create s uid ip ua ttl now tok).2 now tok).bind
        (fun r => r.expires_at) = some (now + ttl * 3600) ∧
      (UserSessionRepository.get (UserSessionRepository.create s uid ip ua ttl now tok).2 now tok).bind
        (fun r => r.created_at) = some now ∧
      now < now + ttl * 3600) ∧
    (∀ (s : PasswordResetTokenRepository.RState) (uid mins now : Nat) (tok : String),
      1 ≤ mins →
      (PasswordResetTokenRepository.create s uid mins now tok).1 =
        { id := s.idSeq + 1, user_id := uid, reset_token := tok,
          token_expires := now + mins * 60, is_used := false, created_at := now,
          used_at := none } ∧
      (PasswordResetTokenRepository.get
          (PasswordResetTokenRepository.create s uid mins now tok).2 now tok).bind
        (fun r => r.token_expires) = some (now + mins * 60) ∧
      (PasswordResetTokenRepository.get
          (PasswordResetTokenRepository.create s uid mins now tok).2 now tok).bind
        (fun r => r.created_at) = some now ∧
      now < now + mins * 60) := by
  constructor
  · intro s uid ip ua ttl now tok httl hcheck hzs
    have hnogt : ¬ ((uzget s.userZ uid).length > UserSessionRepository.MAX_SESSIONS_PER_USER) := by
      omega
    have hfst : (UserSessionRepository.create s uid ip ua ttl now tok).1 =
        .ok (some { id := s.idSeq + 1, user_id := uid, session_token := tok,
                    expires_at := now + ttl * 3600, ip_address := ip, user_agent := ua,
                    last_activity_at := now, created_at := now }) := by
      simp [UserSessionRepository.create, hcheck, hnogt]
    have hprim : (UserSessionRepository.create s uid ip ua ttl now tok).2.primary =
        expireatP (hsetP s.primary now tok
          [("id", .num (s.idSeq + 1)), ("user_id", .num uid), ("session_token", .str tok),
           ("expires_at", .time (now + ttl * 3600)), ("ip_address", .str ip),
           ("user_agent", .str ua), ("last_activity_at", .time now),
           ("created_at", .time now)]) now tok (now + ttl * 3600) := by
      simp [UserSessionRepository.create, hcheck, hnogt]
    obtain ⟨base, hbase⟩ := plookup_hset_expireat s.primary now tok
      [("id", .num (s.idSeq + 1)), ("user_id", .num uid), ("session_token", .str tok),
       ("expires_at", .time (now + ttl * 3600)), ("ip_address", .str ip),
       ("user_agent", .str ua), ("last_activity_at", .time now),
       ("created_at", .time now)] (now + ttl * 3600)
    have hentry : plookup (UserSessionRepository.create s uid ip ua ttl now tok).2.primary tok =
        some (⟨hsetFields base
          [("id", .num (s.idSeq + 1)), ("user_id", .num uid), ("session_token", .str tok),
           ("expires_at", .time (now + ttl * 3600)), ("ip_address", .str ip),
           ("user_agent", .str ua), ("last_activity_at", .time now),
           ("created_at", .time now)], some (now + ttl * 3600)⟩ : HEntry) := by
      rw [hprim]; exact hbase
    have halive : (⟨hsetFields base
        [("id", .num (s.idSeq + 1)), ("user_id", .num uid), ("session_token", .str tok),
         ("expires_at", .time (now + ttl * 3600)), ("ip_address", .str ip),
         ("user_agent", .str ua), ("last_activity_at", .time now),
         ("created_at", .time now)], some (now + ttl * 3600)⟩ : HEntry).alive now = true := by
      simp [HEntry.alive]
    have hnonempty : (hsetFields base
        [("id", .num (s.idSeq + 1)), ("user_id", .num uid), ("session_token", .str tok),
         ("expires_at", .time (now + ttl * 3600)), ("ip_address", .str ip),
         ("user_agent", .str ua), ("last_activity_at", .time now),
         ("created_at", .time now)]).isEmpty = false := by
      have h3 := hsetFields_cons_ne_nil base ("id", RVal.num (s.idSeq + 1))
        [("user_id", .num uid), ("session_token", .str tok),
         ("expires_at", .time (now + ttl * 3600)), ("ip_address", .str ip),
         ("user_agent", .str ua), ("last_activity_at", .time now), ("created_at", .time now)]
      simpa [List.isEmpty_iff] using h3
    have hget : UserSessionRepository.get
        (UserSessionRepository.create s uid ip ua ttl now tok).2 now tok =
        some (UserSessionRepository._parse_session_data (hsetFields base
          [("id", .num (s.idSeq + 1)), ("user_id", .num uid), ("session_token", .str tok),
           ("expires_at", .time (now + ttl * 3600)), ("ip_address", .str ip),
           ("user_agent", .str ua), ("last_activity_at", .time now),
           ("created_at", .time now)])) :=
      session_get_of_entry _ _ _ _ hentry halive hnonempty
    have hexp : lookupF (hsetFields base
        [("id", .num (s.idSeq + 1)), ("user_id", .num uid), ("session_token", .str tok),
         ("expires_at", .time (now + ttl * 3600)), ("ip_address", .str ip),
         ("user_agent", .str ua), ("last_activity_at", .time now),
         ("created_at", .time now)]) "expires_at" = some (.time (now + ttl * 3600)) :=
      lookupF_hsetFields_mem _ _ _ _ rfl (by simp)
    have hcrt : lookupF (hsetFields base
        [("id", .num (s.idSeq + 1)), ("user_id", .num uid), ("session_token", .str tok),
         ("expires_at", .time (now + ttl * 3600)), ("ip_address", .str ip),
         ("user_agent", .str ua), ("last_activity_at", .time now),
         ("created_at", .time now)]) "created_at" = some (.time now) :=
      lookupF_hsetFields_mem _ _ _ _ rfl (by simp)
    refine ⟨hfst, ?_, ?_, by omega⟩
    · rw [hget]
      simp [UserSessionRepository._parse_session_data, UserSessionRepository.parseTimeF, hexp]
    · rw [hget]
      simp [UserSessionRepository._parse_session_data, UserSessionRepository.parseTimeF, hcrt]
  · intro s uid mins now tok hmins
    have hfst : (PasswordResetTokenRepository.create s uid mins now tok).1 =
        { id := s.idSeq + 1, user_id := uid, reset_token := tok,
          token_expires := now + mins * 60, is_used := false, created_at := now,
          used_at := none } := rfl
    have hprim : (PasswordResetTokenRepository.create s uid mins now tok).2.primary =
        expireatP (hsetP s.primary now tok
          [("id", .num (s.idSeq + 1)), ("user_id", .num uid), ("reset_token", .str tok),
           ("token_expires", .time (now + mins * 60)), ("is_used", .str "0"),
           ("created_at", .time now), ("used_at", .emptyS)]) now tok (now + mins * 60) := rfl
    obtain ⟨base, hbase⟩ := plookup_hset_expireat s.primary now tok
      [("id", .num (s.idSeq + 1)), ("user_id", .num uid), ("reset_token", .str tok),
       ("token_expires", .time (now + mins * 60)), ("is_used", .str "0"),
       ("created_at", .time now), ("used_at", .emptyS)] (now + mins * 60)
    have hentry : plookup (PasswordResetTokenRepository.create s uid mins now tok).2.primary tok =
        some (⟨hsetFields base
          [("id", .num (s.idSeq + 1)), ("user_id", .num uid), ("reset_token", .str tok),
           ("token_expires", .time (now + mins * 60)), ("is_used", .str "0"),
           ("created_at", .time now), ("used_at", .emptyS)],
          some (now + mins * 60)⟩ : HEntry) := by
      rw [hprim]; exact hbase
    have halive : (⟨hsetFields base
        [("id", .num (s.idSeq + 1)), ("user_id", .num uid), ("reset_token", .str tok),
         ("token_expires", .time (now + mins * 60)), ("is_used", .str "0"),
         ("created_at", .time now), ("used_at", .emptyS)],
        some (now + mins * 60)⟩ : HEntry).alive now = true := by
      simp [HEntry.alive]
    have hnonempty : (hsetFields base
        [("id", .num (s.idSeq + 1)), ("user_id", .num uid), ("reset_token", .str tok),
         ("token_expires", .time (now + mins * 60)), ("is_used", .str "0"),
         ("created_at", .time now), ("used_at", .emptyS)]).isEmpty = false := by
      have h3 := hsetFields_cons_ne_nil base ("id", RVal.num (s.idSeq + 1))
        [("user_id", .num uid), ("reset_token", .str tok),
         ("token_expires", .time (now + mins * 60)), ("is_used", .str "0"),
         ("created_at", .time now), ("used_at", .emptyS)]
      simpa [List.isEmpty_iff] using h3
    have hget : PasswordResetTokenRepository.get
        (PasswordResetTokenRepository.create s uid mins now tok).2 now tok =
        some (PasswordResetTokenRepository._parse_token_data (hsetFields base
          [("id", .num (s.idSeq + 1)), ("user_id", .num uid), ("reset_token", .str tok),
           ("token_expires", .time (now + mins * 60)), ("is_used", .str "0"),
           ("created_at", .time now), ("used_at", .emptyS)])) :=
      reset_get_of_entry _ _ _ _ hentry halive hnonempty
    have hexp : lookupF (hsetFields base
        [("id", .num (s.idSeq + 1)), ("user_id", .num uid), ("reset_token", .str tok),
         ("token_expires", .time (now + mins * 60)), ("is_used", .str "0"),
         ("created_at", .time now), ("used_at", .emptyS)]) "token_expires" =
        some (.time (now + mins * 60)) :=
      lookupF_hsetFields_mem _ _ _ _ rfl (by simp)
    have hcrt : lookupF (hsetFields base
        [("id", .num (s.idSeq + 1)), ("user_id", .num uid), ("reset_token", .str tok),
         ("token_expires", .time (now + mins * 60)), ("is_used", .str "0"),
         ("created_at", .time now), ("used_at", .emptyS)]) "created_at" = some (.time now) :=
      lookupF_hsetFields_mem _ _ _ _ rfl (by simp)
    refine ⟨hfst, ?_, ?_, by omega⟩
    · rw [hget]
      simp [PasswordResetTokenRepository._parse_token_data,
        UserSessionRepository.parseTimeF, hexp]
    · rw [hget]
      simp [PasswordResetTokenRepository._parse_token_data,
        UserSessionRepository.parseTimeF, hcrt]

/-- C7 (witness): both halves of the theorem at concrete inputs (empty
stores, default TTLs). -/
theorem C7_create_expiry_roundtrip_witness :
    (UserSessionRepository.get
        (UserSessionRepository.create UserSessionRepository.emptySState 1 "ip" "ua" 24 0 "tk").2
        0 "tk").bind (fun r => r.expires_at) = some 86400 ∧
    (PasswordResetTokenRepository.get
        (PasswordResetTokenRepository.create PasswordResetTokenRepository.emptyRState 7 60 0 "rk").2
        0 "rk").bind (fun r => r.token_expires) = some 3600 := by
  have h1 := (C7_create_expiry_roundtrip.1 UserSessionRepository.emptySState 1 "ip" "ua" 24 0 "tk"
    (by decide) (by decide) (by decide)).2.1
  have h2 := (C7_create_expiry_roundtrip.2 PasswordResetTokenRepository.emptyRState 7 60 0 "rk"
    (by decide)).2.1
  exact ⟨h1, h2⟩

/-! ## C8: `cleanup_expired` over already-self-expired records -/

set_option maxRecDepth 100000 in
open UserSessionRepository in
/-- C8 (evaluation at the failing input): five records in the by-expiry index
have `expires_at ≤ now` and their primary hashes have self-expired; with
`batch_size = 2` the scan finds all 5 and batches them in 3 chunks, but every
`delete` returns `False` (the primary hash is already gone), so
`cleanup_expired` deletes nothing, leaves every index entry in place, and
returns 0 — not 5 as the claim requires. -/
theorem C8_cleanup_expired_reclaims_nothing :
    (zrangeLe sExpired5.expiryZ 100).length = 5 ∧
    (chunks1 1 (zrangeLe sExpired5.expiryZ 100)).length = 3 ∧
    UserSessionRepository.cleanup_expired sExpired5 100 2 = some (0, sExpired5) := by
  decide

/-! ## C9: a self-expired primary makes `delete` and the sweep no-ops -/

theorem session_get_none_of_dead (s : UserSessionRepository.SState) (now : Nat)
    (tok : String) (e : HEntry) (he : plookup s.primary tok = some e)
    (hd : e.alive now = false) : UserSessionRepository.get s now tok = none := by
  simp [UserSessionRepository.get, he, hd]

theorem session_delete_absent (s : UserSessionRepository.SState) (now : Nat) (tok : String)
    (h : UserSessionRepository.get s now tok = none) :
    UserSessionRepository.delete s now tok = (.ok false, s) := by
  simp [UserSessionRepository.delete, h]

theorem chunksFuel_join (b : Nat) : ∀ (fuel : Nat) (l : List α), l.length ≤ fuel →
    (chunksFuel b fuel l).flatten = l := by
  intro fuel
  induction fuel with
  | zero =>
      intro l hl
      cases l with
      | nil => rfl
      | cons x xs => simp at hl
  | succ fuel ih =>
      intro l hl
      cases l with
      | nil => rfl
      | cons x xs =>
          have hlen : (xs.drop b).length ≤ fuel := by
            simp only [List.length_drop]
            simp at hl
            omega
          simp only [chunksFuel, List.flatten_cons, ih _ hlen]
          simp [List.take_append_drop]

theorem chunks1_join (b : Nat) (l : List α) : (chunks1 b l).flatten = l :=
  chunksFuel_join b l.length l le_rfl

theorem foldl_join_eq (L : List (List α)) (f : β → α → β) (init : β) :
    L.flatten.foldl f init = L.foldl (fun acc ch => ch.foldl f acc) init := by
  induction L generalizing init with
  | nil => rfl
  | cons ch L ih => simp [List.flatten_cons, List.foldl_append, ih]

open UserSessionRepository in
theorem cleanup_expired_eq_flat (s : SState) (now b : Nat) :
    UserSessionRepository.cleanup_expired s now (b + 1) =
      some ((zrangeLe s.expiryZ now).foldl (cleanupStep now) (0, s)) := by
  show some _ = some _
  congr 1
  have h := foldl_join_eq (chunks1 b (zrangeLe s.expiryZ now)) (cleanupStep now) ((0 : Nat), s)
  rw [chunks1_join] at h
  exact h.symm

open UserSessionRepository in
theorem cleanupStep_preserves (s0 : SState) (tok : String) (i0 now : Nat) (e0 : HEntry)
    (he0 : plookup s0.primary tok = some e0) (hd0 : e0.alive now = false)
    (hids : ∀ tok' e', plookup s0.primary tok' = some e' →
      parseNatF e'.fields "id" = some i0 → tok' = tok)
    (acc : Nat × SState) (t : String)
    (hp : DeadTokPreserved s0 acc.2 tok i0) :
    DeadTokPreserved s0 (cleanupStep now acc t).2 tok i0 := by
  obtain ⟨hp1, hp2, hp3, hp4, hp5, hp6⟩ := hp
  rcases hget : UserSessionRepository.get acc.2 now t with _ | d
  · have hdel : UserSessionRepository.delete acc.2 now t = (.ok false, acc.2) :=
      session_delete_absent _ _ _ hget
    simp only [cleanupStep, hdel]
    exact ⟨hp1, hp2, hp3, hp4, hp5, hp6⟩
  · have htne : t ≠ tok := by
      intro hEq
      subst hEq
      have hlook : plookup acc.2.primary t = some e0 := by rw [hp1, he0]
      have hnone := session_get_none_of_dead acc.2 now t e0 hlook hd0
      rw [hget] at hnone
      exact absurd hnone (by simp)
    obtain ⟨e'', hlook'', halive'', hne'', hd''⟩ := session_get_inv acc.2 now t d hget
    rcases hud : d.user_id with _ | uid
    · have hdel : UserSessionRepository.delete acc.2 now t = (.error, acc.2) := by
        simp [UserSessionRepository.delete, hget, hud]
      simp only [cleanupStep, hdel]
      exact ⟨hp1, hp2, hp3, hp4, hp5, hp6⟩
    · rcases hip : d.ip_address with _ | ip
      · have hdel : UserSessionRepository.delete acc.2 now t = (.error, acc.2) := by
          simp [UserSessionRepository.delete, hget, hud, hip]
        simp only [cleanupStep, hdel]
        exact ⟨hp1, hp2, hp3, hp4, hp5, hp6⟩
      · have hdel : UserSessionRepository.delete acc.2 now t =
            (.ok true,
              { acc.2 with
                primary := pdel acc.2.primary t
                userZ := uzrem acc.2.userZ uid t
                expiryZ := zremZ acc.2.expiryZ t
                activityZ := zremZ acc.2.activityZ t
                ipSets := iprem acc.2.ipSets now ip t
                idMap :=
                  match d.id with
                  | some i => if i = 0 then acc.2.idMap else iddel acc.2.idMap i
                  | none => acc.2.idMap }) := by
          simp [UserSessionRepository.delete, hget, hud, hip]
        simp only [cleanupStep, hdel]
        refine ⟨?_, ?_, ?_, ?_, ?_, ?_⟩
        · show plookup (pdel acc.2.primary t) tok = _
          rw [show plookup (pdel acc.2.primary t) tok = plookup acc.2.primary tok
            from alookup_adel_ne _ htne]
          exact hp1
        · show zscoreOf (zremZ acc.2.expiryZ t) tok = _
          rw [show zscoreOf (zremZ acc.2.expiryZ t) tok = zscoreOf acc.2.expiryZ tok
            from alookup_adel_ne _ htne]
          exact hp2
        · show zscoreOf (zremZ acc.2.activityZ t) tok = _
          rw [show zscoreOf (zremZ acc.2.activityZ t) tok = zscoreOf acc.2.activityZ tok
            from alookup_adel_ne _ htne]
          exact hp3
        · intro u
          show zscoreOf (uzget (uzrem acc.2.userZ uid t) u) tok = _
          by_cases hu : uid = u
          · subst hu
            rw [show uzget (uzrem acc.2.userZ uid t) uid =
                zremZ (uzget acc.2.userZ uid) t from uzget_uzset_self _ _ _]
            rw [show zscoreOf (zremZ (uzget acc.2.userZ uid) t) tok =
                zscoreOf (uzget acc.2.userZ uid) tok from alookup_adel_ne _ htne]
            exact hp4 uid
          · rw [show uzget (uzrem acc.2.userZ uid t) u = uzget acc.2.userZ u
              from uzget_uzset_ne _ _ hu]
            exact hp4 u
        · show alookup (match d.id with
              | some i => if i = 0 then acc.2.idMap else iddel acc.2.idMap i
              | none => acc.2.idMap) i0 = some tok
          rcases hdid : d.id with _ | i
          · exact hp5
          · show alookup (if i = 0 then acc.2.idMap else iddel acc.2.idMap i) i0 = some tok
            by_cases hi0 : i = 0
            · rw [if_pos hi0]
              exact hp5
            · rw [if_neg hi0]
              have hii0 : i ≠ i0 := by
                intro hEq
                subst hEq
                have hparse : parseNatF e''.fields "id" = some i := by
                  rw [hd''] at hdid
                  exact hdid
                exact htne (hids t e'' (hp6 t e'' hlook'') hparse)
              rw [show alookup (iddel acc.2.idMap i) i0 = alookup acc.2.idMap i0
                from alookup_adel_ne _ hii0]
              exact hp5
        · intro tok' e' hlk
          by_cases ht' : tok' = t
          · subst ht'
            rw [show plookup (pdel acc.2.primary tok') tok' = none
              from alookup_adel_self _ _] at hlk
            exact absurd hlk (by simp)
          · rw [show plookup (pdel acc.2.primary t) tok' = plookup acc.2.primary tok'
              from alookup_adel_ne _ (fun hEq => ht' hEq.symm)] at hlk
            exact hp6 tok' e' hlk

open UserSessionRepository in
theorem cleanup_foldl_preserves (s0 : SState) (tok : String) (i0 now : Nat) (e0 : HEntry)
    (he0 : plookup s0.primary tok = some e0) (hd0 : e0.alive now = false)
    (hids : ∀ tok' e', plookup s0.primary tok' = some e' →
      parseNatF e'.fields "id" = some i0 → tok' = tok) :
    ∀ (l : List String) (acc : Nat × SState), DeadTokPreserved s0 acc.2 tok i0 →
      DeadTokPreserved s0 (l.foldl (cleanupStep now) acc).2 tok i0 := by
  intro l
  induction l with
  | nil => intro acc hp; exact hp
  | cons t l ih =>
      intro acc hp
      rw [List.foldl_cons]
      exact ih _ (cleanupStep_preserves s0 tok i0 now e0 he0 hd0 hids acc t hp)

open UserSessionRepository in
/-- C9: for a token whose primary hash has already self-expired while its
secondary index entries still exist, `delete` returns `false` and removes
nothing (the state is literally unchanged), and `cleanup_expired` — whatever
the batch size — counts the token as not deleted and never reclaims its
by-owner, by-expiry, or by-activity index entries, nor its id→token mapping
(the id-uniqueness hypothesis `hids` holds in every state the repository
builds, ids being drawn from the atomic `id_seq` counter). -/
theorem C9_dead_token_never_reclaimed (s : SState) (tok : String) (now : Nat)
    (e : HEntry) (i0 : Nat)
    (he : plookup s.primary tok = some e) (hdead : e.alive now = false)
    (hid : alookup s.idMap i0 = some tok)
    (hids : ∀ tok' e', plookup s.primary tok' = some e' →
      parseNatF e'.fields "id" = some i0 → tok' = tok) :
    UserSessionRepository.delete s now tok = (.ok false, s) ∧
    ∀ b r, UserSessionRepository.cleanup_expired s now b = some r →
      DeadTokPreserved s r.2 tok i0 := by
  have hgetnone : UserSessionRepository.get s now tok = none :=
    session_get_none_of_dead s now tok e he hdead
  refine ⟨session_delete_absent s now tok hgetnone, ?_⟩
  intro b r hr
  cases b with
  | zero => simp [UserSessionRepository.cleanup_expired] at hr
  | succ b =>
      rw [cleanup_expired_eq_flat] at hr
      have hr' : r = (zrangeLe s.expiryZ now).foldl (cleanupStep now) (0, s) := by
        exact ((Option.some.injEq _ _).mp hr.symm)
      subst hr'
      have hinit : DeadTokPreserved s ((0 : Nat), s).2 tok i0 :=
        ⟨rfl, rfl, rfl, fun _ => rfl, hid, fun _ _ h => h⟩
      exact cleanup_foldl_preserves s tok i0 now e he hdead hids _ _ hinit

open UserSessionRepository in
/-- C9 (witness): the theorem at the concrete self-expired session `"tk"`
(expireat 10, observed at 11), including a concrete sweep with batch size 2. -/
theorem C9_dead_token_never_reclaimed_witness :
    UserSessionRepository.delete sExpired 11 "tk" = (.ok false, sExpired) ∧
    DeadTokPreserved sExpired sExpired "tk" 1 := by
  have hids : ∀ tok' e', plookup sExpired.primary tok' = some e' →
      parseNatF e'.fields "id" = some 1 → tok' = "tk" := by
    intro tok' e' h1 _
    by_cases htk : ("tk" : String) = tok'
    · exact htk.symm
    · simp [sExpired, sessEntry, plookup, alookup, htk] at h1
  have h := C9_dead_token_never_reclaimed sExpired "tk" 11
    (sessEntry 1 "tk" 1 10 0 0 "10.0.0.1" "ua") 1 (by decide) (by decide) (by decide) hids
  have h2 := h.2 2 (0, sExpired) (by decide)
  exact ⟨h.1, h2⟩

/-! ## C6: the per-owner live-session bound -/

set_option maxRecDepth 1000000 in
open UserSessionRepository in
/-- C6 (counterexample): a chronological sequence of 16 manager `create`
calls for owner 1 — the last one running at the instant that equals the first
session's `expires_at` — leaves `find_by_user(1, active_only=True)` returning
16 records, one more than `MAX_SESSIONS_PER_USER`: the observable per-owner
bound is not an invariant of every reachable instant. -/
theorem C6_sixteen_at_boundary_counterexample :
    Chrono 0 tr16 = true ∧
    (find_by_user (runOps emptySState tr16) 1 true 3600).length = 16 := by
  decide

theorem countGe_mono (z : ZSet) {t t' : Nat} (h : t ≤ t') :
    UserSessionRepository.countGe z t' ≤ UserSessionRepository.countGe z t := by
  refine List.countP_mono_left ?_
  intro q _ hq
  simp only [decide_eq_true_eq] at hq ⊢
  omega

theorem countGe_le_length (z : ZSet) (t : Nat) :
    UserSessionRepository.countGe z t ≤ z.length :=
  List.countP_le_length _

theorem countP_aupsert_le [DecidableEq κ] (l : List (κ × Nat)) (k : κ) (v : Nat)
    (p : κ × Nat → Bool) : (aupsert l k v).countP p ≤ l.countP p + 1 := by
  induction l with
  | nil =>
      rw [show aupsert ([] : List (κ × Nat)) k v = [(k, v)] from rfl, List.countP_cons]
      split <;> omega
  | cons hd tl ih =>
      by_cases h : hd.1 = k
      · rw [show aupsert (hd :: tl) k v = (k, v) :: tl from by simp [aupsert, h],
          List.countP_cons, List.countP_cons]
        split <;> split <;> omega
      · rw [show aupsert (hd :: tl) k v = hd :: aupsert tl k v from by simp [aupsert, h],
          List.countP_cons, List.countP_cons]
        split <;> omega

theorem countP_aupsert_mem [DecidableEq κ] (l : List (κ × Nat)) (k : κ) (v v0 : Nat)
    (p : κ × Nat → Bool) (hmem : alookup l k = some v0) (h0 : p (k, v0) = true)
    (h1 : p (k, v) = true) : (aupsert l k v).countP p = l.countP p := by
  induction l with
  | nil => simp [alookup] at hmem
  | cons hd tl ih =>
      by_cases h : hd.1 = k
      · have hhd : hd = (k, v0) := by
          rcases hd with ⟨a, b⟩
          simp only at h
          subst h
          simp [alookup] at hmem
          rw [hmem]
        rw [show aupsert (hd :: tl) k v = (k, v) :: tl from by simp [aupsert, h],
          List.countP_cons, List.countP_cons, hhd, h0, h1]
      · have hmem' : alookup tl k = some v0 := by
          rcases hd with ⟨a, b⟩
          simpa [alookup, h] using hmem
        rw [show aupsert (hd :: tl) k v = hd :: aupsert tl k v from by simp [aupsert, h],
          List.countP_cons, List.countP_cons, ih hmem']

theorem countGe_zadd_le (z : ZSet) (tok : String) (sc t : Nat) :
    UserSessionRepository.countGe (zaddZ z tok sc) t ≤
      UserSessionRepository.countGe z t + 1 :=
  countP_aupsert_le z tok sc _

theorem countGe_zadd_mem_ge (z : ZSet) (tok : String) {sc0 sc t : Nat}
    (hmem : zscoreOf z tok = some sc0) (h0 : t ≤ sc0) (h1 : t ≤ sc) :
    UserSessionRepository.countGe (zaddZ z tok sc) t =
      UserSessionRepository.countGe z t :=
  countP_aupsert_mem z tok sc sc0 _ hmem (by simpa using h0) (by simpa using h1)

theorem countGe_zrem_le (z : ZSet) (tok : String) (t : Nat) :
    UserSessionRepository.countGe (zremZ z tok) t ≤ UserSessionRepository.countGe z t :=
  (List.filter_sublist z).countP_le _

theorem countGe_eq_countGt_of_no_boundary (z : ZSet) (t : Nat)
    (h : z.countP (fun q => decide (q.2 = t)) = 0) :
    UserSessionRepository.countGe z t = UserSessionRepository.countGt z t := by
  induction z with
  | nil => rfl
  | cons hd tl ih =>
      rw [List.countP_cons] at h
      by_cases hc : hd.2 = t
      · simp [hc] at h
      · have htl : List.countP (fun q => decide (q.2 = t)) tl = 0 := by
          simpa [hc] using h
        have ihh := ih htl
        simp only [UserSessionRepository.countGe, UserSessionRepository.countGt,
          List.countP_cons] at ihh ⊢
        by_cases hle : t ≤ hd.2
        · have hlt : t < hd.2 := by omega
          simp [hle, hlt, ihh]
        · have hlt : ¬ (t < hd.2) := by omega
          simp [hle, hlt, ihh]

theorem plookup_hsetP_ne (p : Primary) (now : Nat) (tok : String) (kvs : Fields)
    {tok' : String} (h : tok ≠ tok') :
    plookup (hsetP p now tok kvs) tok' = plookup p tok' := by
  rcases hb : plookup p tok with _ | e
  · simp only [hsetP, hb]
    exact alookup_aupsert_ne _ _ h
  · by_cases ha : e.alive now = true
    · simp only [hsetP, hb, ha, if_true]
      exact alookup_aupsert_ne _ _ h
    · have ha' : e.alive now = false := by simpa using ha
      simp only [hsetP, hb, ha', Bool.false_eq_true, if_false]
      exact alookup_aupsert_ne _ _ h

theorem plookup_expireatP_ne (p : Primary) (now : Nat) (tok : String) (texp : Nat)
    {tok' : String} (h : tok ≠ tok') :
    plookup (expireatP p now tok texp) tok' = plookup p tok' := by
  rcases hb : plookup p tok with _ | e
  · simp only [expireatP, hb]
  · by_cases ha : e.alive now = true
    · simp only [expireatP, hb, ha, if_true]
      exact alookup_aupsert_ne _ _ h
    · have ha' : e.alive now = false := by simpa using ha
      simp only [expireatP, hb, ha', Bool.false_eq_true, if_false]
      exact alookup_adel_ne _ h

theorem plookup_hsetP_alive (p : Primary) (now : Nat) (tok : String) (kvs : Fields)
    (e : HEntry) (he : plookup p tok = some e) (ha : e.alive now = true) :
    plookup (hsetP p now tok kvs) tok = some { e with fields := hsetFields e.fields kvs } := by
  simp only [hsetP, he, ha, if_true]
  exact alookup_aupsert_self _ _ _

theorem plookup_hset_expireat_alive (p : Primary) (now : Nat) (tok : String)
    (kvs : Fields) (texp : Nat) (e : HEntry) (he : plookup p tok = some e)
    (ha : e.alive now = true) :
    plookup (expireatP (hsetP p now tok kvs) now tok texp) tok =
      some ⟨hsetFields e.fields kvs, some texp⟩ := by
  have h2 := plookup_hsetP_alive p now tok kvs e he ha
  have ha2 : ({ e with fields := hsetFields e.fields kvs } : HEntry).alive now = true := ha
  simp only [expireatP, h2, ha2, if_true]
  exact alookup_aupsert_self _ _ _

theorem plookup_hsetP_fresh (p : Primary) (now : Nat) (tok : String) (kvs : Fields)
    (h : plookup p tok = none ∨ ∃ e, plookup p tok = some e ∧ e.alive now = false) :
    plookup (hsetP p now tok kvs) tok = some ⟨hsetFields [] kvs, none⟩ := by
  rcases h with hb | ⟨e, hb, hd⟩
  · simp only [hsetP, hb]
    exact alookup_aupsert_self _ _ _
  · simp only [hsetP, hb, hd, Bool.false_eq_true, if_false]
    exact alookup_aupsert_self _ _ _

theorem parseNatF_hsetFields_not_mem (kvs base : Fields) (k : String)
    (h : k ∉ kvs.map Prod.fst) :
    UserSessionRepository.parseNatF (hsetFields base kvs) k =
      UserSessionRepository.parseNatF base k := by
  unfold UserSessionRepository.parseNatF
  rw [lookupF_hsetFields_not_mem _ _ _ h]

theorem HEntry_alive_mono (e : HEntry) {t t' : Nat} (h : t ≤ t')
    (ha : e.alive t' = true) : e.alive t = true := by
  unfold HEntry.alive at ha ⊢
  cases hx : e.expAt with
  | none => rfl
  | some x =>
      rw [hx] at ha
      simp at ha ⊢
      omega

open UserSessionRepository in
theorem SessInv_mono (s : SState) {t t' : Nat} (h : t ≤ t') (hInv : SessInv s t) :
    SessInv s t' := by
  obtain ⟨hM, hAB⟩ := hInv
  constructor
  · intro u
    exact le_trans (countGe_mono _ h) (hM u)
  · intro tok e u' hlk halive' hparse
    exact hAB tok e u' hlk (HEntry_alive_mono e h halive') hparse

open UserSessionRepository in
theorem length_insertByActivity (x : SRec) (l : List SRec) :
    (insertByActivity x l).length = l.length + 1 := by
  induction l with
  | nil => rfl
  | cons y ys ih =>
      by_cases h : activityLe x y = true
      · simp [insertByActivity, h]
      · simp [insertByActivity, h, ih]

open UserSessionRepository in
theorem length_sortByActivity (l : List SRec) :
    (sortByActivity l).length = l.length := by
  induction l with
  | nil => rfl
  | cons x xs ih => simp [sortByActivity, length_insertByActivity, ih]

open UserSessionRepository in
theorem find_by_user_length_le (s : SState) (uid : Nat) (t : Nat) :
    (find_by_user s uid true t).length ≤ countGe (uzget s.userZ uid) t := by
  unfold find_by_user
  rw [length_sortByActivity]
  calc ((zrangeGe (uzget s.userZ uid) t).filterMap (UserSessionRepository.get s t)).length
      ≤ (zrangeGe (uzget s.userZ uid) t).length := List.length_filterMap_le _ _
    _ = countGe (uzget s.userZ uid) t := by
        unfold zrangeGe UserSessionRepository.countGe
        rw [List.length_map]
        exact (List.countP_eq_length_filter _ _).symm

open UserSessionRepository in
theorem delete_state_cases (s : SState) (now : Nat) (tk : String) :
    (UserSessionRepository.delete s now tk).2 = s ∨
    ∃ d uid ip, UserSessionRepository.get s now tk = some d ∧ d.user_id = some uid ∧
      d.ip_address = some ip ∧
      (UserSessionRepository.delete s now tk).2 =
        { s with
          primary := pdel s.primary tk
          userZ := uzrem s.userZ uid tk
          expiryZ := zremZ s.expiryZ tk
          activityZ := zremZ s.activityZ tk
          ipSets := iprem s.ipSets now ip tk
          idMap :=
            match d.id with
            | some i => if i = 0 then s.idMap else iddel s.idMap i
            | none => s.idMap } := by
  rcases hget : UserSessionRepository.get s now tk with _ | d
  · left; simp [UserSessionRepository.delete, hget]
  · rcases hud : d.user_id with _ | uid
    · left; simp [UserSessionRepository.delete, hget, hud]
    · rcases hip : d.ip_address with _ | ip
      · left; simp [UserSessionRepository.delete, hget, hud, hip]
      · right
        refine ⟨d, uid, ip, rfl, hud, hip, ?_⟩
        simp [UserSessionRepository.delete, hget, hud, hip]

open UserSessionRepository in
theorem delete_countGe_le (s : SState) (now : Nat) (tk : String) (u τ : Nat) :
    countGe (uzget (UserSessionRepository.delete s now tk).2.userZ u) τ ≤
      countGe (uzget s.userZ u) τ := by
  rcases delete_state_cases s now tk with h | ⟨d, uid, ip, _, _, _, h⟩
  · rw [h]
  · rw [h]
    show countGe (uzget (uzrem s.userZ uid tk) u) τ ≤ _
    by_cases hu : uid = u
    · subst hu
      rw [show uzget (uzrem s.userZ uid tk) uid = zremZ (uzget s.userZ uid) tk
        from uzget_uzset_self _ _ _]
      exact countGe_zrem_le _ _ _
    · rw [show uzget (uzrem s.userZ uid tk) u = uzget s.userZ u from uzget_uzset_ne _ _ hu]

open UserSessionRepository in
theorem delete_preserves_SessInv (s : SState) (now τ : Nat) (tk : String)
    (h : SessInv s τ) : SessInv (UserSessionRepository.delete s now tk).2 τ := by
  obtain ⟨hM, hAB⟩ := h
  rcases delete_state_cases s now tk with hcase | ⟨d, uid, ip, hget, hud, hip, hcase⟩
  · rw [hcase]; exact ⟨hM, hAB⟩
  · rw [hcase]
    constructor
    · intro u
      show countGe (uzget (uzrem s.userZ uid tk) u) τ ≤ _
      by_cases hu : uid = u
      · subst hu
        rw [show uzget (uzrem s.userZ uid tk) uid = zremZ (uzget s.userZ uid) tk
          from uzget_uzset_self _ _ _]
        exact le_trans (countGe_zrem_le _ _ _) (hM uid)
      · rw [show uzget (uzrem s.userZ uid tk) u = uzget s.userZ u from uzget_uzset_ne _ _ hu]
        exact hM u
    · intro tok e u' hlk halive hparse
      have htne : tk ≠ tok := by
        intro hEq
        subst hEq
        rw [show plookup (pdel s.primary tk) tk = none from alookup_adel_self _ _] at hlk
        exact absurd hlk (by simp)
      rw [show plookup (pdel s.primary tk) tok = plookup s.primary tok
        from alookup_adel_ne _ htne] at hlk
      obtain ⟨x, hx, hz⟩ := hAB tok e u' hlk halive hparse
      refine ⟨x, hx, ?_⟩
      show zscoreOf (uzget (uzrem s.userZ uid tk) u') tok = some x
      by_cases hu : uid = u'
      · subst hu
        rw [show uzget (uzrem s.userZ uid tk) uid = zremZ (uzget s.userZ uid) tk
          from uzget_uzset_self _ _ _]
        rw [show zscoreOf (zremZ (uzget s.userZ uid) tk) tok =
            zscoreOf (uzget s.userZ uid) tok from alookup_adel_ne _ htne]
        exact hz
      · rw [show uzget (uzrem s.userZ uid tk) u' = uzget s.userZ u' from uzget_uzset_ne _ _ hu]
        exact hz

open UserSessionRepository in
theorem touch_preserves_SessInv (s : SState) (now τ : Nat) (tk : String)
    (h : SessInv s τ) : SessInv (update_activity s tk now).2 τ := by
  obtain ⟨hM, hAB⟩ := h
  constructor
  · intro u
    show countGe (uzget s.userZ u) τ ≤ _
    exact hM u
  · intro tok e u' hlk halive hparse
    have hprim : (update_activity s tk now).2.primary =
        hsetP s.primary now tk [("last_activity_at", RVal.time now)] := rfl
    rw [hprim] at hlk
    by_cases htk : tk = tok
    · subst htk
      rcases hb : plookup s.primary tk with _ | e0
      · rw [plookup_hsetP_fresh s.primary now tk _ (Or.inl hb)] at hlk
        have he : e = ⟨hsetFields [] [("last_activity_at", RVal.time now)], none⟩ :=
          (Option.some.inj hlk).symm
        rw [he] at hparse
        simp [UserSessionRepository.parseNatF, hsetFields, lookupF, upsertF, aupsert,
          alookup] at hparse
      · by_cases ha0 : e0.alive now = true
        · rw [plookup_hsetP_alive s.primary now tk _ e0 hb ha0] at hlk
          have he : e = { e0 with
              fields := hsetFields e0.fields [("last_activity_at", RVal.time now)] } :=
            (Option.some.inj hlk).symm
          have halive0 : e0.alive τ = true := by
            rw [he] at halive
            exact halive
          have hparse0 : parseNatF e0.fields "user_id" = some u' := by
            rw [he] at hparse
            rw [show parseNatF (hsetFields e0.fields [("last_activity_at", RVal.time now)])
                "user_id" = parseNatF e0.fields "user_id"
              from parseNatF_hsetFields_not_mem _ _ _ (by simp)] at hparse
            exact hparse
          obtain ⟨x, hx, hz⟩ := hAB tk e0 u' hb halive0 hparse0
          refine ⟨x, ?_, ?_⟩
          · rw [he]; exact hx
          · show zscoreOf (uzget s.userZ u') tk = some x
            exact hz
        · have ha0' : e0.alive now = false := by simpa using ha0
          rw [plookup_hsetP_fresh s.primary now tk _ (Or.inr ⟨e0, hb, ha0'⟩)] at hlk
          have he : e = ⟨hsetFields [] [("last_activity_at", RVal.time now)], none⟩ :=
            (Option.some.inj hlk).symm
          rw [he] at hparse
          simp [UserSessionRepository.parseNatF, hsetFields, lookupF, upsertF, aupsert,
            alookup] at hparse
    · rw [plookup_hsetP_ne s.primary now tk _ htk] at hlk
      exact hAB tok e u' hlk halive hparse

open UserSessionRepository in
theorem extend_preserves_SessInv (s : SState) (now τ : Nat) (tk : String) (hrs : Nat)
    (hτ : τ ≤ now) (h : SessInv s τ) :
    SessInv (UserSessionRepository.extend s tk hrs now).2 τ := by
  obtain ⟨hM, hAB⟩ := h
  rcases hget : UserSessionRepository.get s now tk with _ | d
  · have hst : (UserSessionRepository.extend s tk hrs now).2 = s := by
      simp [UserSessionRepository.extend, hget]
    rw [hst]; exact ⟨hM, hAB⟩
  · rcases hud : d.user_id with _ | uid
    · have hst : (UserSessionRepository.extend s tk hrs now).2 = s := by
        simp [UserSessionRepository.extend, hget, hud]
      rw [hst]; exact ⟨hM, hAB⟩
    · obtain ⟨e, he, halive, hne, hd⟩ := session_get_inv s now tk d hget
      have hparse : parseNatF e.fields "user_id" = some uid := by
        rw [hd] at hud; exact hud
      have haliveτ : e.alive τ = true := HEntry_alive_mono e hτ halive
      obtain ⟨x, hx, hz⟩ := hAB tk e uid he haliveτ hparse
      have hnowx : now ≤ x := by
        unfold HEntry.alive at halive
        rw [hx] at halive
        simpa using halive
      have hst : (UserSessionRepository.extend s tk hrs now).2 =
          { s with
            primary := expireatP (hsetP s.primary now tk
              [("expires_at", RVal.time (now + hrs * 3600))]) now tk (now + hrs * 3600)
            expiryZ := zaddZ s.expiryZ tk (now + hrs * 3600)
            userZ := uzadd s.userZ uid tk (now + hrs * 3600) } := by
        simp [UserSessionRepository.extend, hget, hud]
      rw [hst]
      constructor
      · intro u
        show countGe (uzget (uzadd s.userZ uid tk (now + hrs * 3600)) u) τ ≤ _
        by_cases hu : uid = u
        · subst hu
          rw [show uzget (uzadd s.userZ uid tk (now + hrs * 3600)) uid =
              zaddZ (uzget s.userZ uid) tk (now + hrs * 3600) from uzget_uzset_self _ _ _]
          rw [countGe_zadd_mem_ge _ _ hz (le_trans hτ hnowx) (by omega)]
          exact hM uid
        · rw [show uzget (uzadd s.userZ uid tk (now + hrs * 3600)) u = uzget s.userZ u
            from uzget_uzset_ne _ _ hu]
          exact hM u
      · intro tok2 e2 u2 hlk2 halive2 hparse2
        by_cases htk : tk = tok2
        · subst htk
          rw [plookup_hset_expireat_alive s.primary now tk _ _ e he halive] at hlk2
          have he2 : e2 = ⟨hsetFields e.fields [("expires_at", RVal.time (now + hrs * 3600))],
              some (now + hrs * 3600)⟩ := (Option.some.inj hlk2).symm
          have hu2 : u2 = uid := by
            rw [he2] at hparse2
            rw [show parseNatF (hsetFields e.fields
                [("expires_at", RVal.time (now + hrs * 3600))]) "user_id" =
                parseNatF e.fields "user_id"
              from parseNatF_hsetFields_not_mem _ _ _ (by simp)] at hparse2
            rw [hparse] at hparse2
            exact (Option.some.inj hparse2).symm
          refine ⟨now + hrs * 3600, by rw [he2], ?_⟩
          rw [hu2]
          rw [show uzget (uzadd s.userZ uid tk (now + hrs * 3600)) uid =
              zaddZ (uzget s.userZ uid) tk (now + hrs * 3600) from uzget_uzset_self _ _ _]
          exact alookup_aupsert_self _ _ _
        · rw [plookup_expireatP_ne _ now tk _ htk, plookup_hsetP_ne _ now tk _ htk] at hlk2
          obtain ⟨x2, hx2, hz2⟩ := hAB tok2 e2 u2 hlk2 halive2 hparse2
          refine ⟨x2, hx2, ?_⟩
          by_cases hu : uid = u2
          · subst hu
            rw [show uzget (uzadd s.userZ uid tk (now + hrs * 3600)) uid =
                zaddZ (uzget s.userZ uid) tk (now + hrs * 3600) from uzget_uzset_self _ _ _]
            rw [show zscoreOf (zaddZ (uzget s.userZ uid) tk (now + hrs * 3600)) tok2 =
                zscoreOf (uzget s.userZ uid) tok2 from alookup_aupsert_ne _ _ htk]
            exact hz2
          · rw [show uzget (uzadd s.userZ uid tk (now + hrs * 3600)) u2 = uzget s.userZ u2
              from uzget_uzset_ne _ _ hu]
            exact hz2

open UserSessionRepository in
theorem create_writes_preserves (s2 : SState) (uid : Nat) (ip ua : String)
    (ttl now : Nat) (tk : String) (sid : Nat)
    (hInv2 : SessInv s2 now)
    (hcnt : countGe (uzget s2.userZ uid) now + 1 ≤ MAX_SESSIONS_PER_USER) :
    SessInv { s2 with
      primary := expireatP (hsetP s2.primary now tk [("id", .num sid), ("user_id", .num uid), ("session_token", .str tk), ("expires_at", .time (now + ttl * 3600)), ("ip_address", .str ip), ("user_agent", .str ua), ("last_activity_at", .time now), ("created_at", .time now)]) now tk (now + ttl * 3600)
      userZ := uzadd s2.userZ uid tk (now + ttl * 3600)
      expiryZ := zaddZ s2.expiryZ tk (now + ttl * 3600)
      activityZ := zaddZ s2.activityZ tk now
      ipSets := ipexpire (ipadd s2.ipSets now ip tk) now ip 86400
      idMap := idset s2.idMap sid tk } now := by
  obtain ⟨hM2, hAB2⟩ := hInv2
  constructor
  · intro u
    show countGe (uzget (uzadd s2.userZ uid tk (now + ttl * 3600)) u) now ≤ _
    by_cases hu : uid = u
    · subst hu
      rw [show uzget (uzadd s2.userZ uid tk (now + ttl * 3600)) uid =
          zaddZ (uzget s2.userZ uid) tk (now + ttl * 3600) from uzget_uzset_self _ _ _]
      exact le_trans (countGe_zadd_le _ _ _ _) hcnt
    · rw [show uzget (uzadd s2.userZ uid tk (now + ttl * 3600)) u = uzget s2.userZ u
        from uzget_uzset_ne _ _ hu]
      exact hM2 u
  · intro tok2 e2 u2 hlk2 halive2 hparse2
    by_cases htk : tk = tok2
    · subst htk
      obtain ⟨base, hbase⟩ := plookup_hset_expireat s2.primary now tk
        [("id", .num sid), ("user_id", .num uid), ("session_token", .str tk),
         ("expires_at", .time (now + ttl * 3600)), ("ip_address", .str ip),
         ("user_agent", .str ua), ("last_activity_at", .time now),
         ("created_at", .time now)] (now + ttl * 3600)
      rw [hbase] at hlk2
      have he2 : e2 = ⟨hsetFields base
          [("id", .num sid), ("user_id", .num uid), ("session_token", .str tk),
           ("expires_at", .time (now + ttl * 3600)), ("ip_address", .str ip),
           ("user_agent", .str ua), ("last_activity_at", .time now),
           ("created_at", .time now)], some (now + ttl * 3600)⟩ :=
        (Option.some.inj hlk2).symm
      have hlook : lookupF (hsetFields base
          [("id", .num sid), ("user_id", .num uid), ("session_token", .str tk),
           ("expires_at", .time (now + ttl * 3600)), ("ip_address", .str ip),
           ("user_agent", .str ua), ("last_activity_at", .time now),
           ("created_at", .time now)]) "user_id" = some (RVal.num uid) :=
        lookupF_hsetFields_mem _ base "user_id" (RVal.num uid) rfl (by simp)
      have hpu : parseNatF (hsetFields base
          [("id", .num sid), ("user_id", .num uid), ("session_token", .str tk),
           ("expires_at", .time (now + ttl * 3600)), ("ip_address", .str ip),
           ("user_agent", .str ua), ("last_activity_at", .time now),
           ("created_at", .time now)]) "user_id" = some uid := by
        simp [UserSessionRepository.parseNatF, hlook]
      have hu2 : u2 = uid := by
        rw [he2] at hparse2
        rw [hpu] at hparse2
        exact (Option.some.inj hparse2).symm
      refine ⟨now + ttl * 3600, by rw [he2], ?_⟩
      rw [hu2]
      rw [show uzget (uzadd s2.userZ uid tk (now + ttl * 3600)) uid =
          zaddZ (uzget s2.userZ uid) tk (now + ttl * 3600) from uzget_uzset_self _ _ _]
      exact alookup_aupsert_self _ _ _
    · rw [plookup_expireatP_ne _ now tk _ htk, plookup_hsetP_ne _ now tk _ htk] at hlk2
      obtain ⟨x2, hx2, hz2⟩ := hAB2 tok2 e2 u2 hlk2 halive2 hparse2
      refine ⟨x2, hx2, ?_⟩
      by_cases hu : uid = u2
      · subst hu
        rw [show uzget (uzadd s2.userZ uid tk (now + ttl * 3600)) uid =
            zaddZ (uzget s2.userZ uid) tk (now + ttl * 3600) from uzget_uzset_self _ _ _]
        rw [show zscoreOf (zaddZ (uzget s2.userZ uid) tk (now + ttl * 3600)) tok2 =
            zscoreOf (uzget s2.userZ uid) tok2 from alookup_aupsert_ne _ _ htk]
        exact hz2
      · rw [show uzget (uzadd s2.userZ uid tk (now + ttl * 3600)) u2 = uzget s2.userZ u2
          from uzget_uzset_ne _ _ hu]
        exact hz2

open UserSessionRepository in
theorem create_preserves_SessInv (s : SState) (uid : Nat) (ip ua : String)
    (ttl now : Nat) (tk : String)
    (hbf : (uzget s.userZ uid).countP (fun q => decide (q.2 = now)) = 0)
    (h : SessInv s now) :
    SessInv (UserSessionRepository.create s uid ip ua ttl now tk).2 now := by
  obtain ⟨hM, hAB⟩ := h
  have hInv1 : SessInv { s with idSeq := s.idSeq + 1 } now := ⟨hM, hAB⟩
  by_cases hcheck : _check_session_limits { s with idSeq := s.idSeq + 1 } uid now = false
  · have hst : (UserSessionRepository.create s uid ip ua ttl now tk).2 =
        { s with idSeq := s.idSeq + 1 } := by
      simp [UserSessionRepository.create, hcheck]
    rw [hst]; exact hInv1
  · have hcheckT : _check_session_limits { s with idSeq := s.idSeq + 1 } uid now = true :=
      eq_true_of_ne_false hcheck
    have hbound : countGe (uzget s.userZ uid) now + 1 ≤ MAX_SESSIONS_PER_USER := by
      by_cases hlen : (uzget s.userZ uid).length ≥ MAX_SESSIONS_PER_USER
      · have hnotc : ¬ ((uzget s.userZ uid).length - zcountLe (uzget s.userZ uid) now ≥
            MAX_SESSIONS_PER_USER) := by
          intro hc
          have hfalse : _check_session_limits { s with idSeq := s.idSeq + 1 } uid now
              = false := by
            have huz : uzget ({ s with idSeq := s.idSeq + 1 } : SState).userZ uid =
                uzget s.userZ uid := rfl
            simp only [_check_session_limits, huz]
            rw [if_pos hlen, if_pos hc]
          rw [hfalse] at hcheckT
          exact absurd hcheckT (by simp)
        have hsplit := length_eq_zcountLe_add_countGt (uzget s.userZ uid) now
        rw [countGe_eq_countGt_of_no_boundary (uzget s.userZ uid) now hbf]
        omega
      · have hle := countGe_le_length (uzget s.userZ uid) now
        omega
    by_cases hgt : (uzget s.userZ uid).length > MAX_SESSIONS_PER_USER
    · rcases hmin : zminMember (uzget s.userZ uid) with _ | oldest
      · have hst : (UserSessionRepository.create s uid ip ua ttl now tk).2 =
            { { s with idSeq := s.idSeq + 1 } with
              primary := expireatP (hsetP ({ s with idSeq := s.idSeq + 1 } : SState).primary now tk [("id", .num (s.idSeq + 1)), ("user_id", .num uid), ("session_token", .str tk), ("expires_at", .time (now + ttl * 3600)), ("ip_address", .str ip), ("user_agent", .str ua), ("last_activity_at", .time now), ("created_at", .time now)]) now tk (now + ttl * 3600)
              userZ := uzadd ({ s with idSeq := s.idSeq + 1 } : SState).userZ uid tk (now + ttl * 3600)
              expiryZ := zaddZ ({ s with idSeq := s.idSeq + 1 } : SState).expiryZ tk (now + ttl * 3600)
              activityZ := zaddZ ({ s with idSeq := s.idSeq + 1 } : SState).activityZ tk now
              ipSets := ipexpire (ipadd ({ s with idSeq := s.idSeq + 1 } : SState).ipSets now ip tk) now ip 86400
              idMap := idset ({ s with idSeq := s.idSeq + 1 } : SState).idMap (s.idSeq + 1) tk } := by
          simp [UserSessionRepository.create, hcheckT, hgt, hmin]
        rw [hst]
        exact create_writes_preserves _ uid ip ua ttl now tk (s.idSeq + 1) hInv1 hbound
      · rcases hdel : UserSessionRepository.delete { s with idSeq := s.idSeq + 1 } now oldest
          with ⟨r, s'⟩
        have hs' : s' = (UserSessionRepository.delete { s with idSeq := s.idSeq + 1 }
            now oldest).2 := by rw [hdel]
        have hInv2 : SessInv s' now := by
          rw [hs']
          exact delete_preserves_SessInv _ now now oldest hInv1
        have hcnt2 : countGe (uzget s'.userZ uid) now + 1 ≤ MAX_SESSIONS_PER_USER := by
          have hle2 : countGe (uzget s'.userZ uid) now ≤ countGe (uzget s.userZ uid) now := by
            rw [hs']
            exact delete_countGe_le _ now oldest uid now
          omega
        rcases r with b | _
        · have hst : (UserSessionRepository.create s uid ip ua ttl now tk).2 =
              { s' with
                primary := expireatP (hsetP s'.primary now tk [("id", .num (s.idSeq + 1)), ("user_id", .num uid), ("session_token", .str tk), ("expires_at", .time (now + ttl * 3600)), ("ip_address", .str ip), ("user_agent", .str ua), ("last_activity_at", .time now), ("created_at", .time now)]) now tk (now + ttl * 3600)
                userZ := uzadd s'.userZ uid tk (now + ttl * 3600)
                expiryZ := zaddZ s'.expiryZ tk (now + ttl * 3600)
                activityZ := zaddZ s'.activityZ tk now
                ipSets := ipexpire (ipadd s'.ipSets now ip tk) now ip 86400
                idMap := idset s'.idMap (s.idSeq + 1) tk } := by
            simp [UserSessionRepository.create, hcheckT, hgt, hmin, hdel]
          rw [hst]
          exact create_writes_preserves s' uid ip ua ttl now tk (s.idSeq + 1) hInv2 hcnt2
        · have hst : (UserSessionRepository.create s uid ip ua ttl now tk).2 =
              { s with idSeq := s.idSeq + 1 } := by
            simp [UserSessionRepository.create, hcheckT, hgt, hmin, hdel]
          rw [hst]
          exact hInv1
    · have hst : (UserSessionRepository.create s uid ip ua ttl now tk).2 =
          { { s with idSeq := s.idSeq + 1 } with
            primary := expireatP (hsetP ({ s with idSeq := s.idSeq + 1 } : SState).primary now tk [("id", .num (s.idSeq + 1)), ("user_id", .num uid), ("session_token", .str tk), ("expires_at", .time (now + ttl * 3600)), ("ip_address", .str ip), ("user_agent", .str ua), ("last_activity_at", .time now), ("created_at", .time now)]) now tk (now + ttl * 3600)
            userZ := uzadd ({ s with idSeq := s.idSeq + 1 } : SState).userZ uid tk (now + ttl * 3600)
            expiryZ := zaddZ ({ s with idSeq := s.idSeq + 1 } : SState).expiryZ tk (now + ttl * 3600)
            activityZ := zaddZ ({ s with idSeq := s.idSeq + 1 } : SState).activityZ tk now
            ipSets := ipexpire (ipadd ({ s with idSeq := s.idSeq + 1 } : SState).ipSets now ip tk) now ip 86400
            idMap := idset ({ s with idSeq := s.idSeq + 1 } : SState).idMap (s.idSeq + 1) tk } := by
        simp [UserSessionRepository.create, hcheckT, hgt]
      rw [hst]
      exact create_writes_preserves _ uid ip ua ttl now tk (s.idSeq + 1) hInv1 hbound

open UserSessionRepository in
theorem cleanupStep_preserves_SessInv (now τ : Nat) (acc : Nat × SState) (t : String)
    (h : SessInv acc.2 τ) : SessInv (cleanupStep now acc t).2 τ := by
  have hpres := delete_preserves_SessInv acc.2 now τ t h
  rcases hdel : UserSessionRepository.delete acc.2 now t with ⟨r, s'⟩
  rw [hdel] at hpres
  rcases r with b | _
  · cases b
    · simp only [cleanupStep, hdel]
      exact hpres
    · simp only [cleanupStep, hdel]
      exact hpres
  · simp only [cleanupStep, hdel]
    exact hpres

open UserSessionRepository in
theorem cleanup_foldl_preserves_SessInv (now τ : Nat) :
    ∀ (l : List String) (acc : Nat × SState), SessInv acc.2 τ →
      SessInv (l.foldl (cleanupStep now) acc).2 τ := by
  intro l
  induction l with
  | nil => intro acc h; exact h
  | cons t l ih =>
      intro acc h
      rw [List.foldl_cons]
      exact ih _ (cleanupStep_preserves_SessInv now τ acc t h)

open UserSessionRepository in
theorem cleanup_preserves_SessInv (s : SState) (now τ b : Nat) (h : SessInv s τ) :
    SessInv (match UserSessionRepository.cleanup_expired s now b with
      | some r => r.2
      | none => s) τ := by
  cases b with
  | zero => simpa [UserSessionRepository.cleanup_expired] using h
  | succ b =>
      rw [cleanup_expired_eq_flat]
      exact cleanup_foldl_preserves_SessInv now τ _ (0, s) h

open UserSessionRepository in
theorem applyOp_preserves_SessInv (s : SState) (t' : Nat) (op : SOp)
    (hbf : boundaryFree s t' op = true) (h : SessInv s t') :
    SessInv (applyOp s t' op) t' := by
  cases op with
  | createOp uid ip ua ttl tok =>
      have hcnt : (uzget s.userZ uid).countP (fun q => decide (q.2 = t')) = 0 :=
        of_decide_eq_true hbf
      exact create_preserves_SessInv s uid ip ua ttl t' tok hcnt h
  | touchOp tok => exact touch_preserves_SessInv s t' t' tok h
  | extendOp tok hrs => exact extend_preserves_SessInv s t' t' tok hrs le_rfl h
  | deleteOp tok => exact delete_preserves_SessInv s t' t' tok h
  | cleanupOp b => exact cleanup_preserves_SessInv s t' t' b h

open UserSessionRepository in
theorem Reach_SessInv : ∀ {s : SState} {t : Nat}, Reach s t → SessInv s t := by
  intro s t h
  induction h with
  | init =>
      constructor
      · intro u
        show countGe (uzget ([] : UserZ) u) 0 ≤ _
        simp [uzget, alookup, UserSessionRepository.countGe, MAX_SESSIONS_PER_USER]
      · intro tok e u' hlk _ _
        simp [emptySState, plookup, alookup] at hlk
  | step t' op _ hle hbf ih =>
      exact applyOp_preserves_SessInv _ t' op hbf (SessInv_mono _ hle ih)
  | tick t' _ hle ih =>
      exact SessInv_mono _ hle ih

open UserSessionRepository in
/-- C6 (amended): provided every `create` runs at a boundary-free instant (no
session of that owner has `expires_at` exactly equal to the wall clock at that
call — the measure-zero alignment exploited by the counterexample), every
state reachable through manager operations at non-decreasing instants
satisfies the bound: `find_by_user(o, active_only=True)` returns at most
`MAX_SESSIONS_PER_USER` records for every owner. -/
theorem C6_find_by_user_bounded (s : SState) (t : Nat) (hreach : Reach s t) (uid : Nat) :
    (find_by_user s uid true t).length ≤ MAX_SESSIONS_PER_USER := by
  have hInv := Reach_SessInv hreach
  exact le_trans (find_by_user_length_le s uid t) (hInv.1 uid)

open UserSessionRepository in
/-- C6 (witness): the amended bound at a concrete reachable state — the empty
store after one boundary-free `create`. -/
theorem C6_find_by_user_bounded_witness :
    (find_by_user (applyOp emptySState 0 (SOp.createOp 1 "ip" "ua" 2 "tk")) 1 true 0).length ≤
      MAX_SESSIONS_PER_USER :=
  C6_find_by_user_bounded _ 0
    (Reach.step 0 (SOp.createOp 1 "ip" "ua" 2 "tk") Reach.init (Nat.le_refl 0) (by decide)) 1
